import Mathlib

/-!
Verification development for the inventory storage engine
(`domain` and `store` packages): record validation, the error taxonomy,
the in-memory store, the JSON-file-backed store, and the bulk-import
engine, shallowly embedded in Lean.

Modelling conventions:
* `float64` prices are modelled as `Rat`; the only operations the code
  performs on prices are order comparisons and equality.
* The Go `map[string]domain.Product` is modelled as an association list
  `List (String × Product)`; `mapPut` overwrites in place, matching Go's
  `m[k] = v`, and `mapGet` is Go's `m[k]` lookup.
* `context.Context` is modelled by its observable expiry state
  (`Ctx`): live, canceled, or past deadline; `Ctx.err` is `ctx.Err()`.
* Filesystem effects are modelled by `FileData` (the canonical file's
  content) and a `SaveOutcome` parameter standing for the success or
  failure of the I/O performed by `saveToFile` (MkdirAll / Marshal /
  WriteFile / Rename).  On failure the canonical file is unchanged
  (the write goes to a temporary sibling which is renamed atomically).
* Concurrency: the store's lock serializes all map mutation, so a
  `BulkImport` execution is modelled as a sequential fold over one
  admissible processing order; properties proved for every input list
  hold for every such order.  The in-memory collector loop is modelled
  separately (`collectResults`) over an explicit event sequence so that
  mid-collection cancellation is expressible.
-/

/-- `domain.Product` (product.go): one inventory record. -/
structure Product where
  ID : String
  Name : String
  Price : Rat
  Quantity : Int
  Category : String
deriving DecidableEq

/-- `domain.ListFilter` (product.go): filter/sort descriptor for `List`. -/
structure ListFilter where
  Category : String
  MinPrice : Option Rat
  MaxPrice : Option Rat
  SortBy : String
  Order : String
deriving DecidableEq

/-- The dynamic value stashed in `InvalidProductError.Value` (an `interface{}`). -/
inductive GoValue where
  | str (s : String)
  | num (q : Rat)
  | int (n : Int)
  | prod (p : Product)
deriving DecidableEq

/-- The error values the storage engine can produce: the three domain error
kinds (error.go), the two context expiry errors, I/O failures from
persistence, and the two wrapping shapes used by bulk import
(`fmt.Errorf("id=%s: %w", ...)` and `fmt.Errorf("%v; %w", collected, e)`;
the latter flattens the left error into the message and wraps the right). -/
inductive GoErr where
  | canceled
  | deadlineExceeded
  | notFound (id : String)
  | invalid (field reason : String) (value : GoValue)
  | duplicate (id : String)
  | ioFail (tag : String)
  | wrap (id : String) (inner : GoErr)
  | join (left right : GoErr)
deriving DecidableEq

/-- `errors.As(err, **DuplicateProductError)`-style kind test, extended
structurally through both components of a `join` (the left one survives
only in the message text in Go; we keep it structurally). -/
def GoErr.hasDup : GoErr → Bool
  | .duplicate _ => true
  | .wrap _ e => e.hasDup
  | .join a b => a.hasDup || b.hasDup
  | _ => false

/-- Kind test for `InvalidProductError`, through wrapping. -/
def GoErr.hasInvalid : GoErr → Bool
  | .invalid _ _ _ => true
  | .wrap _ e => e.hasInvalid
  | .join a b => a.hasInvalid || b.hasInvalid
  | _ => false

/-- The field named by an `InvalidProductError`, when the error is one. -/
def GoErr.invField : GoErr → Option String
  | .invalid f _ _ => some f
  | _ => none

/-- Is this error a `DuplicateProductError` itself (no unwrapping)? -/
def GoErr.isDup : GoErr → Bool
  | .duplicate _ => true
  | _ => false

/-- Observable expiry state of a `context.Context`. -/
inductive Ctx where
  | live
  | canceled
  | deadlineExceeded
deriving DecidableEq

/-- `ctx.Err()`. -/
def Ctx.err : Ctx → Option GoErr
  | .live => none
  | .canceled => some .canceled
  | .deadlineExceeded => some .deadlineExceeded

/-! ### The ID → Product map (Go `map[string]domain.Product`) -/

/-- Go map lookup `m[k]`. -/
def mapGet (m : List (String × Product)) (k : String) : Option Product :=
  match m with
  | [] => none
  | (k0, v) :: rest => if k0 = k then some v else mapGet rest k

/-- Go map assignment `m[k] = v`: overwrite in place or append. -/
def mapPut (m : List (String × Product)) (k : String) (v : Product) :
    List (String × Product) :=
  match m with
  | [] => [(k, v)]
  | (k0, v0) :: rest =>
      if k0 = k then (k, v) :: rest else (k0, v0) :: mapPut rest k v

/-- Go `delete(m, k)`. -/
def mapDel (m : List (String × Product)) (k : String) :
    List (String × Product) :=
  match m with
  | [] => []
  | (k0, v) :: rest =>
      if k0 = k then mapDel rest k else (k0, v) :: mapDel rest k

/-- The values of the map, in representation order. -/
def mapVals (m : List (String × Product)) : List Product :=
  m.map Prod.snd

/-- The keys of the map, in representation order. -/
def mapKeys (m : List (String × Product)) : List String :=
  m.map Prod.fst

/-- Each entry's key equals the `ID` field of the record stored there. -/
def KeyInv (m : List (String × Product)) : Prop :=
  ∀ kv ∈ m, kv.1 = kv.2.ID

instance decKeyInv (m : List (String × Product)) : Decidable (KeyInv m) :=
  inferInstanceAs (Decidable (∀ kv ∈ m, kv.1 = kv.2.ID))

/-! ### Validation (`domain.ValidateProduct`, product.go lines 216-242) -/

/-- `domain.ValidateProduct`. -/
def ValidateProduct (p : Product) : Option GoErr :=
  if p.Name = "" then
    some (.invalid "name" "name cannot be empty" (.str p.Name))
  else if p.Price < 0 then
    some (.invalid "price" "price must be non-negative" (.num p.Price))
  else if p.Quantity < 0 then
    some (.invalid "quantity" "quantity must be non-negative" (.int p.Quantity))
  else
    none

/-! ### In-memory store (store/memory.go) -/

/-- `InMemoryStore.Create`: context check, field validation (ID, Name,
Price, Quantity, in that order), then duplicate check and insert. -/
def memCreate (ctx : Ctx) (m : List (String × Product)) (p : Product) :
    List (String × Product) × Option GoErr :=
  match ctx.err with
  | some e => (m, some e)
  | none =>
    if p.ID = "" then
      (m, some (.invalid "id" "cannot be empty" (.str p.ID)))
    else if p.Name = "" then
      (m, some (.invalid "name" "cannot be empty" (.str p.Name)))
    else if p.Price < 0 then
      (m, some (.invalid "price" "must be non-negative" (.num p.Price)))
    else if p.Quantity < 0 then
      (m, some (.invalid "quantity" "must be non-negative" (.int p.Quantity)))
    else
      match mapGet m p.ID with
      | some _ => (m, some (.duplicate p.ID))
      | none => (mapPut m p.ID p, none)

/-- The zero `domain.Product{}` returned alongside a `Get` error. -/
def emptyProduct : Product :=
  { ID := "", Name := "", Price := 0, Quantity := 0, Category := "" }

/-- `InMemoryStore.Get`. -/
def memGet (ctx : Ctx) (m : List (String × Product)) (id : String) :
    Product × Option GoErr :=
  match ctx.err with
  | some e => (emptyProduct, some e)
  | none =>
    match mapGet m id with
    | none => (emptyProduct, some (.notFound id))
    | some p => (p, none)

/-- `InMemoryStore.Update`: context check, validation of Name, Price,
Quantity (the caller-supplied ID is never examined), then NotFound check;
on success the stored record's ID is overwritten with the path id. -/
def memUpdate (ctx : Ctx) (m : List (String × Product)) (id : String)
    (p : Product) : List (String × Product) × Option GoErr :=
  match ctx.err with
  | some e => (m, some e)
  | none =>
    if p.Name = "" then
      (m, some (.invalid "name" "cannot be empty" (.str p.Name)))
    else if p.Price < 0 then
      (m, some (.invalid "price" "must be non-negative" (.num p.Price)))
    else if p.Quantity < 0 then
      (m, some (.invalid "quantity" "must be non-negative" (.int p.Quantity)))
    else
      match mapGet m id with
      | none => (m, some (.notFound id))
      | some _ => (mapPut m id { p with ID := id }, none)

/-- `InMemoryStore.Delete`. -/
def memDelete (ctx : Ctx) (m : List (String × Product)) (id : String) :
    List (String × Product) × Option GoErr :=
  match ctx.err with
  | some e => (m, some e)
  | none =>
    match mapGet m id with
    | none => (m, some (.notFound id))
    | some _ => (mapDel m id, none)

/-- The filter step of `List`: a record survives unless a set Category
mismatches, or its price is below a set MinPrice or above a set MaxPrice. -/
def passFilter (flt : ListFilter) (p : Product) : Bool :=
  (decide (flt.Category = "") || decide (p.Category = flt.Category)) &&
  (match flt.MinPrice with
   | none => true
   | some mn => decide (¬ p.Price < mn)) &&
  (match flt.MaxPrice with
   | none => true
   | some mx => decide (¬ mx < p.Price))

/-- The `sort.Slice` comparator built from the filter's SortBy/Order. -/
def listLess (flt : ListFilter) (a b : Product) : Bool :=
  match flt.SortBy with
  | "name" =>
      if flt.Order = "desc" then decide (b.Name < a.Name)
      else decide (a.Name < b.Name)
  | "price" =>
      if flt.Order = "desc" then decide (b.Price < a.Price)
      else decide (a.Price < b.Price)
  | "quantity" =>
      if flt.Order = "desc" then decide (b.Quantity < a.Quantity)
      else decide (a.Quantity < b.Quantity)
  | _ => false

/-- Insert into a list sorted by the strict comparator `lt`
(deterministic stand-in for `sort.Slice`, which fixes no tie order). -/
def insOrd (lt : Product → Product → Bool) (x : Product) :
    List Product → List Product
  | [] => [x]
  | y :: ys => if lt x y then x :: y :: ys else y :: insOrd lt x ys

/-- Insertion sort by the strict comparator `lt`. -/
def insSort (lt : Product → Product → Bool) : List Product → List Product
  | [] => []
  | x :: xs => insOrd lt x (insSort lt xs)

/-- The shared body of `List` in both backends: filter the map's values,
then sort only when SortBy is one of name/price/quantity. -/
def listResult (m : List (String × Product)) (flt : ListFilter) :
    List Product :=
  let base := (mapVals m).filter (passFilter flt)
  match flt.SortBy with
  | "name" | "price" | "quantity" => insSort (listLess flt) base
  | _ => base

/-- `InMemoryStore.List`. -/
def memList (ctx : Ctx) (m : List (String × Product)) (flt : ListFilter) :
    List Product × Option GoErr :=
  match ctx.err with
  | some e => ([], some e)
  | none => (listResult m flt, none)

/-! ### File-backed store (store/file.go) -/

/-- Content of the canonical file at the store's path: absent, present but
zero bytes, a well-formed JSON array of records, or bytes that fail
`json.Unmarshal`. -/
inductive FileData where
  | missing
  | empty
  | records (l : List Product)
  | malformed
deriving DecidableEq

/-- Outcome of the I/O performed by one `saveToFile` call (directory
creation, marshalling, temporary-file write, rename). -/
inductive SaveOutcome where
  | ok
  | fail (tag : String)
deriving DecidableEq

/-- Sort records by `ID` ascending — the `sort.Slice` in `saveToFile` with
comparator `list[i].ID < list[j].ID` (insertion sort; map keys are the IDs
and are distinct, so there are no ties and the sorted sequence is unique). -/
def sortByID (l : List Product) : List Product :=
  insSort (fun a b => decide (a.ID < b.ID)) l

/-- `FileStore.saveToFile`: on success the canonical file is atomically
replaced by the whole map serialized sorted by ID ascending; on failure it
is untouched (the write targeted a temporary sibling) and the I/O error is
returned. -/
def saveToFile (sv : SaveOutcome) (m : List (String × Product))
    (f : FileData) : FileData × Option GoErr :=
  match sv with
  | .ok => (.records (sortByID (mapVals m)), none)
  | .fail t => (f, some (.ioFail t))

/-- `NewFileStore` / `FileStore.loadFromFile`: a missing or empty file
yields the empty map; a well-formed array is loaded keyed by each record's
ID; malformed content fails construction (`none`). -/
def NewFileStore (f : FileData) : Option (List (String × Product)) :=
  match f with
  | .missing => some []
  | .empty => some []
  | .records l => some (l.foldl (fun m p => mapPut m p.ID p) [])
  | .malformed => none

/-- `FileStore.Create`: same context check and validations as the
in-memory store, then duplicate check, insert, and `saveToFile`; the save
result is the call's return value. -/
def fileCreate (ctx : Ctx) (sv : SaveOutcome) (m : List (String × Product))
    (f : FileData) (p : Product) :
    (List (String × Product) × FileData) × Option GoErr :=
  match ctx.err with
  | some e => ((m, f), some e)
  | none =>
    if p.ID = "" then
      ((m, f), some (.invalid "id" "cannot be empty" (.str p.ID)))
    else if p.Name = "" then
      ((m, f), some (.invalid "name" "cannot be empty" (.str p.Name)))
    else if p.Price < 0 then
      ((m, f), some (.invalid "price" "must be non-negative" (.num p.Price)))
    else if p.Quantity < 0 then
      ((m, f), some (.invalid "quantity" "must be non-negative" (.int p.Quantity)))
    else
      match mapGet m p.ID with
      | some _ => ((m, f), some (.duplicate p.ID))
      | none =>
        let m2 := mapPut m p.ID p
        let fs := saveToFile sv m2 f
        ((m2, fs.1), fs.2)

/-- `FileStore.Get`. -/
def fileGet (ctx : Ctx) (m : List (String × Product)) (id : String) :
    Product × Option GoErr :=
  match ctx.err with
  | some e => (emptyProduct, some e)
  | none =>
    match mapGet m id with
    | none => (emptyProduct, some (.notFound id))
    | some p => (p, none)

/-- `FileStore.Update`: validates Name/Price/Quantity (never the supplied
ID), NotFound check, overwrite the record's ID with the path id, store,
save. -/
def fileUpdate (ctx : Ctx) (sv : SaveOutcome) (m : List (String × Product))
    (f : FileData) (id : String) (p : Product) :
    (List (String × Product) × FileData) × Option GoErr :=
  match ctx.err with
  | some e => ((m, f), some e)
  | none =>
    if p.Name = "" then
      ((m, f), some (.invalid "name" "cannot be empty" (.str p.Name)))
    else if p.Price < 0 then
      ((m, f), some (.invalid "price" "must be non-negative" (.num p.Price)))
    else if p.Quantity < 0 then
      ((m, f), some (.invalid "quantity" "must be non-negative" (.int p.Quantity)))
    else
      match mapGet m id with
      | none => ((m, f), some (.notFound id))
      | some _ =>
        let m2 := mapPut m id { p with ID := id }
        let fs := saveToFile sv m2 f
        ((m2, fs.1), fs.2)

/-- `FileStore.Delete`. -/
def fileDelete (ctx : Ctx) (sv : SaveOutcome) (m : List (String × Product))
    (f : FileData) (id : String) :
    (List (String × Product) × FileData) × Option GoErr :=
  match ctx.err with
  | some e => ((m, f), some e)
  | none =>
    match mapGet m id with
    | none => ((m, f), some (.notFound id))
    | some _ =>
      let m2 := mapDel m id
      let fs := saveToFile sv m2 f
      ((m2, fs.1), fs.2)

/-- `FileStore.List` (same body as the in-memory `List`). -/
def fileList (ctx : Ctx) (m : List (String × Product)) (flt : ListFilter) :
    List Product × Option GoErr :=
  match ctx.err with
  | some e => ([], some e)
  | none => (listResult m flt, none)

/-! ### Bulk import -/

/-- `collected = e` / `collected = fmt.Errorf("%v; %w", collected, e)`:
fold a new error into the running aggregate. -/
def joinErr (c : Option GoErr) (e : GoErr) : Option GoErr :=
  match c with
  | none => some e
  | some c0 => some (.join c0 e)

/-- One worker iteration of `InMemoryStore.BulkImport` under a live
context: the worker calls `Create` itself and, when it fails, wraps the
error as `fmt.Errorf("id=%s: %w", p.ID, err)` before the collector folds
it into the aggregate. -/
def memBulkStep (st : List (String × Product) × Option GoErr)
    (p : Product) : List (String × Product) × Option GoErr :=
  let r := memCreate .live st.1 p
  (r.1,
    match r.2 with
    | none => st.2
    | some e => joinErr st.2 (.wrap p.ID e))

/-- `InMemoryStore.BulkImport` under a context that never fires during the
call: the context check, then the worker-pool execution serialized through
the store lock in one admissible processing order (the list order —
theorems quantified over all lists cover every order). -/
def memBulkImport (ctx : Ctx) (m : List (String × Product))
    (ps : List Product) : List (String × Product) × Option GoErr :=
  match ctx.err with
  | some e => (m, some e)
  | none => ps.foldl memBulkStep (m, none)

/-- One event observed by the in-memory BulkImport collector loop
(memory.go lines 236-252): either a worker result arrives on the results
channel, or the select picks the fired `ctx.Done()` case. -/
inductive BulkEvent where
  | res (e : Option GoErr)
  | ctxDone
deriving DecidableEq

/-- The collector loop of `InMemoryStore.BulkImport`: repeatedly select on
`ctx.Done()` versus the results channel until `len(products)` results are
received; a fired context returns `ctx.Err()` at once, discarding the
aggregate built so far.  `none` means the modelled event sequence is too
short — the real loop would still be blocked. -/
def collectResults (ctxErr : GoErr) (total : Nat) (evs : List BulkEvent)
    (received : Nat) (collected : Option GoErr) : Option (Option GoErr) :=
  if received ≥ total then some collected
  else
    match evs with
    | [] => none
    | BulkEvent.ctxDone :: _ => some (some ctxErr)
    | BulkEvent.res e :: rest =>
        collectResults ctxErr total rest (received + 1)
          (match e with
           | none => collected
           | some e0 => joinErr collected e0)

/-- One worker iteration of `FileStore.BulkImport` under a live context:
an all-at-once validity test producing `InvalidProductError{Field:"bulk"}`,
then duplicate detection against the batch-local staging map `toAdd`. -/
def fileBulkWorkerStep (st : List (String × Product) × List GoErr)
    (p : Product) : List (String × Product) × List GoErr :=
  if p.ID = "" ∨ p.Name = "" ∨ p.Price < 0 ∨ p.Quantity < 0 then
    (st.1, st.2 ++ [.invalid "bulk" "invalid product" (.prod p)])
  else
    match mapGet st.1 p.ID with
    | some _ => (st.1, st.2 ++ [.duplicate p.ID])
    | none => (mapPut st.1 p.ID p, st.2)

/-- One step of the merge loop of `FileStore.BulkImport`: a staged record
whose ID is already resident in the store adds a Duplicate error to the
aggregate; otherwise it is inserted. -/
def fileBulkMergeStep (st : List (String × Product) × Option GoErr)
    (kv : String × Product) : List (String × Product) × Option GoErr :=
  match mapGet st.1 kv.1 with
  | some _ => (st.1, joinErr st.2 (.duplicate kv.1))
  | none => (mapPut st.1 kv.1 kv.2, st.2)

/-- `FileStore.BulkImport` under a context that never fires during the
call: context check; empty batch returns nil before any work; otherwise
the worker phase stages records and collects per-item errors (one
admissible processing order), the errors are aggregated, the staged map is
merged into the store under the write lock with duplicate detection
against resident records, and a single `saveToFile` runs at the end, its
failure joined onto the aggregate. -/
def fileBulkImport (ctx : Ctx) (sv : SaveOutcome)
    (m : List (String × Product)) (f : FileData) (ps : List Product) :
    (List (String × Product) × FileData) × Option GoErr :=
  match ctx.err with
  | some e => ((m, f), some e)
  | none =>
    if ps.isEmpty then ((m, f), none)
    else
      let ws := ps.foldl fileBulkWorkerStep ([], [])
      let collected0 := ws.2.foldl joinErr none
      let merged := ws.1.foldl fileBulkMergeStep (m, collected0)
      match saveToFile sv merged.1 f with
      | (f2, none) => ((merged.1, f2), merged.2)
      | (f2, some se) =>
          ((merged.1, f2),
            some (match merged.2 with
                  | none => se
                  | some c => .join c se))

/-- Aggregate contains a Duplicate error. -/
def optHasDup (c : Option GoErr) : Bool :=
  match c with
  | none => false
  | some e => e.hasDup

/-! ### Map lemmas -/

theorem mapGet_put_self (m : List (String × Product)) (k : String)
    (v : Product) : mapGet (mapPut m k v) k = some v := by
  induction m with
  | nil => simp [mapPut, mapGet]
  | cons kv rest ih =>
    rcases kv with ⟨k0, v0⟩
    by_cases h : k0 = k
    · simp [mapPut, mapGet, h]
    · simp [mapPut, mapGet, h, ih]

theorem mapGet_put_ne (m : List (String × Product)) (k k' : String)
    (v : Product) (h : k' ≠ k) : mapGet (mapPut m k v) k' = mapGet m k' := by
  induction m with
  | nil =>
    simp only [mapPut, mapGet]
    rw [if_neg (fun hh => h hh.symm)]
  | cons kv rest ih =>
    rcases kv with ⟨k0, v0⟩
    by_cases h0 : k0 = k
    · subst h0
      have hne : ¬ k0 = k' := fun hh => h hh.symm
      simp only [mapPut, if_pos rfl, mapGet]
      rw [if_neg hne, if_neg hne]
    · simp only [mapPut, if_neg h0, mapGet]
      by_cases h1 : k0 = k'
      · rw [if_pos h1, if_pos h1]
      · rw [if_neg h1, if_neg h1, ih]

theorem mapDel_sublist (m : List (String × Product)) (k : String) :
    List.Sublist (mapDel m k) m := by
  induction m with
  | nil => simp [mapDel]
  | cons kv rest ih =>
    rcases kv with ⟨k0, v0⟩
    by_cases h : k0 = k
    · simp only [mapDel, if_pos h]
      exact ih.cons _
    · simp only [mapDel, if_neg h]
      exact ih.cons₂ _

theorem mapGet_del_self (m : List (String × Product)) (k : String) :
    mapGet (mapDel m k) k = none := by
  induction m with
  | nil => simp [mapDel, mapGet]
  | cons kv rest ih =>
    rcases kv with ⟨k0, v0⟩
    by_cases h : k0 = k
    · simpa [mapDel, if_pos h] using ih
    · simpa [mapDel, if_neg h, mapGet, h] using ih

theorem mapGet_del_ne (m : List (String × Product)) (k k' : String)
    (h : k' ≠ k) : mapGet (mapDel m k) k' = mapGet m k' := by
  induction m with
  | nil => simp [mapDel, mapGet]
  | cons kv rest ih =>
    rcases kv with ⟨k0, v0⟩
    by_cases h0 : k0 = k
    · subst h0
      have hne : ¬ k0 = k' := fun hh => h hh.symm
      simp only [mapDel, if_pos rfl, mapGet, if_neg hne]
      exact ih
    · simp only [mapDel, if_neg h0, mapGet]
      by_cases h1 : k0 = k'
      · rw [if_pos h1, if_pos h1]
      · rw [if_neg h1, if_neg h1, ih]

theorem mapGet_mem (m : List (String × Product)) (k : String) (v : Product)
    (h : mapGet m k = some v) : (k, v) ∈ m := by
  induction m with
  | nil => simp [mapGet] at h
  | cons kv rest ih =>
    rcases kv with ⟨k0, v0⟩
    simp only [mapGet] at h
    by_cases h0 : k0 = k
    · subst h0
      rw [if_pos rfl] at h
      cases h
      exact List.mem_cons_self _ _
    · rw [if_neg h0] at h
      exact List.mem_cons_of_mem _ (ih h)

theorem mem_keys_iff_get (m : List (String × Product)) (k : String) :
    k ∈ mapKeys m ↔ (mapGet m k).isSome := by
  induction m with
  | nil => simp [mapKeys, mapGet]
  | cons kv rest ih =>
    rcases kv with ⟨k0, v0⟩
    simp only [mapKeys, List.map_cons, List.mem_cons, mapGet]
    by_cases h0 : k0 = k
    · subst h0
      simp
    · rw [if_neg h0]
      simp only [mapKeys] at ih
      constructor
      · intro h
        rcases h with h | h
        · exact absurd h.symm h0
        · exact ih.1 h
      · intro h
        exact Or.inr (ih.2 h)

theorem mem_keys_put (m : List (String × Product)) (k a : String)
    (v : Product) : a ∈ mapKeys (mapPut m k v) ↔ a ∈ mapKeys m ∨ a = k := by
  induction m with
  | nil => simp [mapPut, mapKeys]
  | cons kv rest ih =>
    rcases kv with ⟨k0, v0⟩
    by_cases h0 : k0 = k
    · have heq : mapPut ((k0, v0) :: rest) k v = (k, v) :: rest := by
        simp [mapPut, h0]
      rw [heq, h0]
      simp only [mapKeys, List.map_cons, List.mem_cons]
      tauto
    · have heq : mapPut ((k0, v0) :: rest) k v = (k0, v0) :: mapPut rest k v := by
        simp [mapPut, h0]
      rw [heq]
      simp only [mapKeys, List.map_cons, List.mem_cons]
      simp only [mapKeys] at ih
      rw [ih]
      tauto

theorem keysNodup_put (k : String) (v : Product) :
    ∀ m : List (String × Product),
      (mapKeys m).Nodup → (mapKeys (mapPut m k v)).Nodup := by
  intro m
  induction m with
  | nil =>
    intro _
    simp [mapPut, mapKeys]
  | cons kv rest ih =>
    rcases kv with ⟨k0, v0⟩
    intro h
    simp only [mapKeys, List.map_cons, List.nodup_cons] at h
    by_cases h0 : k0 = k
    · have heq : mapPut ((k0, v0) :: rest) k v = (k, v) :: rest := by
        simp [mapPut, h0]
      rw [heq]
      simp only [mapKeys, List.map_cons, List.nodup_cons]
      rw [← h0]
      exact ⟨h.1, h.2⟩
    · have heq : mapPut ((k0, v0) :: rest) k v = (k0, v0) :: mapPut rest k v := by
        simp [mapPut, h0]
      rw [heq]
      simp only [mapKeys, List.map_cons, List.nodup_cons]
      refine ⟨?_, ih h.2⟩
      intro hmem
      rcases (mem_keys_put rest k k0 v).1 hmem with hh | hh
      · exact h.1 hh
      · exact h0 hh

theorem keysNodup_del (m : List (String × Product)) (k : String)
    (h : (mapKeys m).Nodup) : (mapKeys (mapDel m k)).Nodup :=
  h.sublist ((mapDel_sublist m k).map Prod.fst)

theorem keyInv_nil : KeyInv [] := by
  intro kv h
  simp at h

theorem keyInv_put (k : String) (v : Product) (hv : k = v.ID) :
    ∀ m : List (String × Product), KeyInv m → KeyInv (mapPut m k v) := by
  intro m
  induction m with
  | nil =>
    intro _ kv h
    simp only [mapPut, List.mem_singleton] at h
    subst h
    exact hv
  | cons kv0 rest ih =>
    rcases kv0 with ⟨k0, v0⟩
    intro hm
    have hrest : KeyInv rest := fun kv h => hm kv (List.mem_cons_of_mem _ h)
    by_cases hk : k0 = k
    · intro kv h
      have heq : mapPut ((k0, v0) :: rest) k v = (k, v) :: rest := by
        simp [mapPut, hk]
      rw [heq] at h
      rcases List.mem_cons.1 h with h | h
      · subst h
        exact hv
      · exact hm kv (List.mem_cons_of_mem _ h)
    · intro kv h
      have heq : mapPut ((k0, v0) :: rest) k v = (k0, v0) :: mapPut rest k v := by
        simp [mapPut, hk]
      rw [heq] at h
      rcases List.mem_cons.1 h with h | h
      · exact h ▸ hm (k0, v0) (List.mem_cons_self _ _)
      · exact ih hrest kv h

theorem keyInv_del (m : List (String × Product)) (k : String)
    (hm : KeyInv m) : KeyInv (mapDel m k) := by
  intro kv h
  exact hm kv ((mapDel_sublist m k).subset h)

theorem keyInv_get (m : List (String × Product)) (k : String) (v : Product)
    (hm : KeyInv m) (h : mapGet m k = some v) : k = v.ID :=
  hm (k, v) (mapGet_mem m k v h)

/-! ### Sorting lemmas for `saveToFile` -/

theorem insOrd_perm (lt : Product → Product → Bool) (x : Product)
    (l : List Product) : List.Perm (insOrd lt x l) (x :: l) := by
  induction l with
  | nil => simp [insOrd]
  | cons y ys ih =>
    by_cases h : lt x y
    · simp [insOrd, h]
    · simp only [insOrd, if_neg h]
      exact (ih.cons y).trans (List.Perm.swap x y ys)

theorem insSort_perm (lt : Product → Product → Bool) (l : List Product) :
    List.Perm (insSort lt l) l := by
  induction l with
  | nil => simp [insSort]
  | cons x xs ih =>
    simp only [insSort]
    exact (insOrd_perm lt x _).trans (ih.cons x)

theorem insOrd_sorted_byID (x : Product) (l : List Product)
    (h : List.Sorted (fun a b : Product => a.ID ≤ b.ID) l) :
    List.Sorted (fun a b : Product => a.ID ≤ b.ID)
      (insOrd (fun a b => decide (a.ID < b.ID)) x l) := by
  induction l with
  | nil => simp [insOrd]
  | cons y ys ih =>
    rw [List.sorted_cons] at h
    by_cases hlt : x.ID < y.ID
    · have heq : insOrd (fun a b => decide (a.ID < b.ID)) x (y :: ys)
          = x :: y :: ys := by
        simp [insOrd, hlt]
      rw [heq, List.sorted_cons]
      constructor
      · intro b hb
        rcases List.mem_cons.1 hb with rfl | hb
        · exact le_of_lt hlt
        · exact le_trans (le_of_lt hlt) (h.1 b hb)
      · rw [List.sorted_cons]
        exact h
    · have heq : insOrd (fun a b => decide (a.ID < b.ID)) x (y :: ys)
          = y :: insOrd (fun a b => decide (a.ID < b.ID)) x ys := by
        simp [insOrd, hlt]
      rw [heq, List.sorted_cons]
      refine ⟨?_, ih h.2⟩
      intro b hb
      have hb2 : b ∈ x :: ys :=
        (insOrd_perm (fun a b => decide (a.ID < b.ID)) x ys).mem_iff.1 hb
      rcases List.mem_cons.1 hb2 with rfl | hb2
      · exact le_of_not_lt hlt
      · exact h.1 b hb2

theorem sortByID_sorted (l : List Product) :
    List.Sorted (fun a b : Product => a.ID ≤ b.ID) (sortByID l) := by
  induction l with
  | nil => simp [sortByID, insSort]
  | cons x xs ih =>
    simp only [sortByID, insSort]
    exact insOrd_sorted_byID x _ ih

theorem sortByID_perm (l : List Product) : List.Perm (sortByID l) l :=
  insSort_perm _ l

/-! ### Aggregation lemmas -/

theorem optHasDup_joinErr_right (c : Option GoErr) (e : GoErr)
    (h : e.hasDup = true) : optHasDup (joinErr c e) = true := by
  cases c with
  | none => simpa [joinErr, optHasDup] using h
  | some c0 => simp [joinErr, optHasDup, GoErr.hasDup, h]

theorem optHasDup_joinErr_left (c : Option GoErr) (e : GoErr)
    (h : optHasDup c = true) : optHasDup (joinErr c e) = true := by
  cases c with
  | none => simp [optHasDup] at h
  | some c0 =>
    simp only [optHasDup] at h
    simp [joinErr, optHasDup, GoErr.hasDup, h]

theorem optHasDup_isSome (c : Option GoErr) (h : optHasDup c = true) :
    c.isSome = true := by
  cases c with
  | none => simp [optHasDup] at h
  | some c0 => simp

theorem errsFold_hasDup_mono (errs : List GoErr) :
    ∀ c : Option GoErr, optHasDup c = true →
      optHasDup (errs.foldl joinErr c) = true := by
  induction errs with
  | nil =>
    intro c h
    simpa using h
  | cons e rest ih =>
    intro c h
    simp only [List.foldl_cons]
    exact ih _ (optHasDup_joinErr_left c e h)

theorem errsFold_hasDup (errs : List GoErr) :
    ∀ (c : Option GoErr) (e : GoErr), e ∈ errs → e.hasDup = true →
      optHasDup (errs.foldl joinErr c) = true := by
  induction errs with
  | nil =>
    intro c e he _
    simp at he
  | cons hd rest ih =>
    intro c e he hdup
    rcases List.mem_cons.1 he with rfl | he
    · simp only [List.foldl_cons]
      exact errsFold_hasDup_mono rest _ (optHasDup_joinErr_right c e hdup)
    · simp only [List.foldl_cons]
      exact ih _ e he hdup

/-! ### `memCreate` case lemmas and bulk-step lemmas -/

/-- A record that passes every check `Create` performs. -/
def ValidRecord (p : Product) : Prop :=
  p.ID ≠ "" ∧ p.Name ≠ "" ∧ 0 ≤ p.Price ∧ 0 ≤ p.Quantity

instance decValidRecord (p : Product) : Decidable (ValidRecord p) :=
  inferInstanceAs
    (Decidable (p.ID ≠ "" ∧ p.Name ≠ "" ∧ 0 ≤ p.Price ∧ 0 ≤ p.Quantity))

theorem memCreate_live_dup (m : List (String × Product)) (p q : Product)
    (hv : ValidRecord p) (hg : mapGet m p.ID = some q) :
    memCreate .live m p = (m, some (.duplicate p.ID)) := by
  obtain ⟨h1, h2, h3, h4⟩ := hv
  simp [memCreate, Ctx.err, h1, h2, not_lt.2 h3, not_lt.2 h4, hg]

theorem memCreate_live_ins (m : List (String × Product)) (p : Product)
    (hv : ValidRecord p) (hg : mapGet m p.ID = none) :
    memCreate .live m p = (mapPut m p.ID p, none) := by
  obtain ⟨h1, h2, h3, h4⟩ := hv
  simp [memCreate, Ctx.err, h1, h2, not_lt.2 h3, not_lt.2 h4, hg]

theorem memCreate_live_cases (m : List (String × Product)) (p : Product) :
    (∃ e, memCreate .live m p = (m, some e))
    ∨ (mapGet m p.ID = none
        ∧ memCreate .live m p = (mapPut m p.ID p, none)) := by
  by_cases h1 : p.ID = ""
  · exact Or.inl ⟨.invalid "id" "cannot be empty" (.str p.ID),
      by simp [memCreate, Ctx.err, h1]⟩
  · by_cases h2 : p.Name = ""
    · exact Or.inl ⟨.invalid "name" "cannot be empty" (.str p.Name),
        by simp [memCreate, Ctx.err, h1, h2]⟩
    · by_cases h3 : p.Price < 0
      · exact Or.inl ⟨.invalid "price" "must be non-negative" (.num p.Price),
          by simp [memCreate, Ctx.err, h1, h2, h3]⟩
      · by_cases h4 : p.Quantity < 0
        · exact Or.inl ⟨.invalid "quantity" "must be non-negative" (.int p.Quantity),
            by simp [memCreate, Ctx.err, h1, h2, h3, h4]⟩
        · cases hg : mapGet m p.ID with
          | some q =>
            exact Or.inl ⟨.duplicate p.ID,
              by simp [memCreate, Ctx.err, h1, h2, h3, h4, hg]⟩
          | none =>
            refine Or.inr ⟨?_, by simp [memCreate, Ctx.err, h1, h2, h3, h4, hg]⟩
            rfl

theorem memCreate_fst_cases (m : List (String × Product)) (p : Product) :
    (memCreate .live m p).1 = m
    ∨ (memCreate .live m p).1 = mapPut m p.ID p := by
  rcases memCreate_live_cases m p with ⟨e, he⟩ | ⟨_, he⟩
  · rw [he]
    exact Or.inl rfl
  · rw [he]
    exact Or.inr rfl

theorem memBulkStep_fst (st : List (String × Product) × Option GoErr)
    (p : Product) : (memBulkStep st p).1 = (memCreate .live st.1 p).1 := rfl

theorem memBulkStep_snd (st : List (String × Product) × Option GoErr)
    (p : Product) :
    (memBulkStep st p).2
      = (match (memCreate .live st.1 p).2 with
         | none => st.2
         | some e => joinErr st.2 (.wrap p.ID e)) := rfl

theorem memBulkStep_keys_mono (st : List (String × Product) × Option GoErr)
    (p : Product) (k : String) (h : k ∈ mapKeys st.1) :
    k ∈ mapKeys (memBulkStep st p).1 := by
  rw [memBulkStep_fst]
  rcases memCreate_fst_cases st.1 p with hc | hc <;> rw [hc]
  · exact h
  · exact (mem_keys_put st.1 p.ID k p).2 (Or.inl h)

theorem memBulkStep_valid_mem (st : List (String × Product) × Option GoErr)
    (p : Product) (hv : ValidRecord p) :
    p.ID ∈ mapKeys (memBulkStep st p).1 := by
  rw [memBulkStep_fst]
  cases hg : mapGet st.1 p.ID with
  | some q =>
    rw [memCreate_live_dup st.1 p q hv hg]
    exact (mem_keys_iff_get st.1 p.ID).2 (by simp [hg])
  | none =>
    rw [memCreate_live_ins st.1 p hv hg]
    exact (mem_keys_put st.1 p.ID p.ID p).2 (Or.inr rfl)

theorem memBulkStep_dup (st : List (String × Product) × Option GoErr)
    (p : Product) (hv : ValidRecord p)
    (h : p.ID ∈ mapKeys st.1) :
    optHasDup (memBulkStep st p).2 = true := by
  obtain ⟨q, hq⟩ := Option.isSome_iff_exists.1 ((mem_keys_iff_get st.1 p.ID).1 h)
  rw [memBulkStep_snd, memCreate_live_dup st.1 p q hv hq]
  exact optHasDup_joinErr_right _ _ (by simp [GoErr.hasDup])

theorem memBulkStep_hasDup_mono (st : List (String × Product) × Option GoErr)
    (p : Product) (h : optHasDup st.2 = true) :
    optHasDup (memBulkStep st p).2 = true := by
  rw [memBulkStep_snd]
  cases hc : (memCreate .live st.1 p).2 with
  | none => exact h
  | some e => exact optHasDup_joinErr_left _ _ h

theorem memBulkStep_keysNodup (st : List (String × Product) × Option GoErr)
    (p : Product) (h : (mapKeys st.1).Nodup) :
    (mapKeys (memBulkStep st p).1).Nodup := by
  rw [memBulkStep_fst]
  rcases memCreate_fst_cases st.1 p with hc | hc <;> rw [hc]
  · exact h
  · exact keysNodup_put _ _ _ h

theorem memBulkStep_keyInv (st : List (String × Product) × Option GoErr)
    (p : Product) (h : KeyInv st.1) : KeyInv (memBulkStep st p).1 := by
  rw [memBulkStep_fst]
  rcases memCreate_fst_cases st.1 p with hc | hc <;> rw [hc]
  · exact h
  · exact keyInv_put p.ID p rfl st.1 h

theorem foldl_memBulk_keys_mono (ps : List Product) :
    ∀ (st : List (String × Product) × Option GoErr) (k : String),
      k ∈ mapKeys st.1 → k ∈ mapKeys ((ps.foldl memBulkStep st).1) := by
  induction ps with
  | nil =>
    intro st k h
    simpa using h
  | cons p rest ih =>
    intro st k h
    simp only [List.foldl_cons]
    exact ih _ k (memBulkStep_keys_mono st p k h)

theorem foldl_memBulk_hasDup_mono (ps : List Product) :
    ∀ st : List (String × Product) × Option GoErr,
      optHasDup st.2 = true →
        optHasDup ((ps.foldl memBulkStep st).2) = true := by
  induction ps with
  | nil =>
    intro st h
    simpa using h
  | cons p rest ih =>
    intro st h
    simp only [List.foldl_cons]
    exact ih _ (memBulkStep_hasDup_mono st p h)

theorem foldl_memBulk_keysNodup (ps : List Product) :
    ∀ st : List (String × Product) × Option GoErr,
      (mapKeys st.1).Nodup → (mapKeys ((ps.foldl memBulkStep st).1)).Nodup := by
  induction ps with
  | nil =>
    intro st h
    simpa using h
  | cons p rest ih =>
    intro st h
    simp only [List.foldl_cons]
    exact ih _ (memBulkStep_keysNodup st p h)

theorem isEmpty_false_of_ne_nil {α : Type} (l : List α) (h : l ≠ []) :
    l.isEmpty = false := by
  cases l with
  | nil => exact absurd rfl h
  | cons a t => rfl

/-! ### File-store bulk worker and merge lemmas -/

theorem fbwStep_not_valid (st : List (String × Product) × List GoErr)
    (p : Product)
    (h : p.ID = "" ∨ p.Name = "" ∨ p.Price < 0 ∨ p.Quantity < 0) :
    fileBulkWorkerStep st p
      = (st.1, st.2 ++ [.invalid "bulk" "invalid product" (.prod p)]) := by
  simp only [fileBulkWorkerStep, if_pos h]

theorem validRecord_not_cond (p : Product) (hv : ValidRecord p) :
    ¬ (p.ID = "" ∨ p.Name = "" ∨ p.Price < 0 ∨ p.Quantity < 0) := by
  obtain ⟨h1, h2, h3, h4⟩ := hv
  simp [h1, h2, not_lt.2 h3, not_lt.2 h4]

theorem fbwStep_valid_dup (st : List (String × Product) × List GoErr)
    (p q : Product) (hv : ValidRecord p) (hg : mapGet st.1 p.ID = some q) :
    fileBulkWorkerStep st p = (st.1, st.2 ++ [.duplicate p.ID]) := by
  simp only [fileBulkWorkerStep, if_neg (validRecord_not_cond p hv), hg]

theorem fbwStep_valid_ins (st : List (String × Product) × List GoErr)
    (p : Product) (hv : ValidRecord p) (hg : mapGet st.1 p.ID = none) :
    fileBulkWorkerStep st p = (mapPut st.1 p.ID p, st.2) := by
  simp only [fileBulkWorkerStep, if_neg (validRecord_not_cond p hv), hg]

theorem fbwStep_fst_cases (st : List (String × Product) × List GoErr)
    (p : Product) :
    (fileBulkWorkerStep st p).1 = st.1
    ∨ (fileBulkWorkerStep st p).1 = mapPut st.1 p.ID p := by
  by_cases h : p.ID = "" ∨ p.Name = "" ∨ p.Price < 0 ∨ p.Quantity < 0
  · rw [fbwStep_not_valid st p h]
    exact Or.inl rfl
  · simp only [fileBulkWorkerStep, if_neg h]
    cases hg : mapGet st.1 p.ID with
    | some q => exact Or.inl rfl
    | none => exact Or.inr rfl

theorem fbwStep_errs_mono (st : List (String × Product) × List GoErr)
    (p : Product) (e : GoErr) (h : e ∈ st.2) :
    e ∈ (fileBulkWorkerStep st p).2 := by
  by_cases hc : p.ID = "" ∨ p.Name = "" ∨ p.Price < 0 ∨ p.Quantity < 0
  · rw [fbwStep_not_valid st p hc]
    exact List.mem_append_left _ h
  · simp only [fileBulkWorkerStep, if_neg hc]
    cases hg : mapGet st.1 p.ID with
    | some q => exact List.mem_append_left _ h
    | none => exact h

theorem fbwStep_keys_mono (st : List (String × Product) × List GoErr)
    (p : Product) (k : String) (h : k ∈ mapKeys st.1) :
    k ∈ mapKeys (fileBulkWorkerStep st p).1 := by
  rcases fbwStep_fst_cases st p with hc | hc <;> rw [hc]
  · exact h
  · exact (mem_keys_put st.1 p.ID k p).2 (Or.inl h)

theorem fbwStep_valid_mem (st : List (String × Product) × List GoErr)
    (p : Product) (hv : ValidRecord p) :
    p.ID ∈ mapKeys (fileBulkWorkerStep st p).1 := by
  cases hg : mapGet st.1 p.ID with
  | some q =>
    rw [fbwStep_valid_dup st p q hv hg]
    exact (mem_keys_iff_get st.1 p.ID).2 (by simp [hg])
  | none =>
    rw [fbwStep_valid_ins st p hv hg]
    exact (mem_keys_put st.1 p.ID p.ID p).2 (Or.inr rfl)

theorem fbwStep_keysNodup (st : List (String × Product) × List GoErr)
    (p : Product) (h : (mapKeys st.1).Nodup) :
    (mapKeys (fileBulkWorkerStep st p).1).Nodup := by
  rcases fbwStep_fst_cases st p with hc | hc <;> rw [hc]
  · exact h
  · exact keysNodup_put _ _ _ h

theorem fbwStep_keyInv (st : List (String × Product) × List GoErr)
    (p : Product) (h : KeyInv st.1) : KeyInv (fileBulkWorkerStep st p).1 := by
  rcases fbwStep_fst_cases st p with hc | hc <;> rw [hc]
  · exact h
  · exact keyInv_put p.ID p rfl st.1 h

theorem foldl_fbw_keys_mono (ps : List Product) :
    ∀ (st : List (String × Product) × List GoErr) (k : String),
      k ∈ mapKeys st.1 → k ∈ mapKeys ((ps.foldl fileBulkWorkerStep st).1) := by
  induction ps with
  | nil =>
    intro st k h
    simpa using h
  | cons p rest ih =>
    intro st k h
    simp only [List.foldl_cons]
    exact ih _ k (fbwStep_keys_mono st p k h)

theorem foldl_fbw_errs_mono (ps : List Product) :
    ∀ (st : List (String × Product) × List GoErr) (e : GoErr),
      e ∈ st.2 → e ∈ ((ps.foldl fileBulkWorkerStep st).2) := by
  induction ps with
  | nil =>
    intro st e h
    simpa using h
  | cons p rest ih =>
    intro st e h
    simp only [List.foldl_cons]
    exact ih _ e (fbwStep_errs_mono st p e h)

theorem foldl_fbw_keysNodup (ps : List Product) :
    ∀ st : List (String × Product) × List GoErr,
      (mapKeys st.1).Nodup →
        (mapKeys ((ps.foldl fileBulkWorkerStep st).1)).Nodup := by
  induction ps with
  | nil =>
    intro st h
    simpa using h
  | cons p rest ih =>
    intro st h
    simp only [List.foldl_cons]
    exact ih _ (fbwStep_keysNodup st p h)

theorem foldl_fbw_keyInv (ps : List Product) :
    ∀ st : List (String × Product) × List GoErr,
      KeyInv st.1 → KeyInv ((ps.foldl fileBulkWorkerStep st).1) := by
  induction ps with
  | nil =>
    intro st h
    simpa using h
  | cons p rest ih =>
    intro st h
    simp only [List.foldl_cons]
    exact ih _ (fbwStep_keyInv st p h)

theorem fbmStep_hasDup_mono (st : List (String × Product) × Option GoErr)
    (kv : String × Product) (h : optHasDup st.2 = true) :
    optHasDup (fileBulkMergeStep st kv).2 = true := by
  unfold fileBulkMergeStep
  cases hg : mapGet st.1 kv.1 with
  | some q => exact optHasDup_joinErr_left _ _ h
  | none => exact h

theorem fbmStep_fst_cases (st : List (String × Product) × Option GoErr)
    (kv : String × Product) :
    (fileBulkMergeStep st kv).1 = st.1
    ∨ (fileBulkMergeStep st kv).1 = mapPut st.1 kv.1 kv.2 := by
  unfold fileBulkMergeStep
  cases hg : mapGet st.1 kv.1 with
  | some q => exact Or.inl rfl
  | none => exact Or.inr rfl

theorem fbmStep_keysNodup (st : List (String × Product) × Option GoErr)
    (kv : String × Product) (h : (mapKeys st.1).Nodup) :
    (mapKeys (fileBulkMergeStep st kv).1).Nodup := by
  rcases fbmStep_fst_cases st kv with hc | hc <;> rw [hc]
  · exact h
  · exact keysNodup_put _ _ _ h

theorem foldl_fbm_hasDup_mono (l : List (String × Product)) :
    ∀ st : List (String × Product) × Option GoErr,
      optHasDup st.2 = true →
        optHasDup ((l.foldl fileBulkMergeStep st).2) = true := by
  induction l with
  | nil =>
    intro st h
    simpa using h
  | cons kv rest ih =>
    intro st h
    simp only [List.foldl_cons]
    exact ih _ (fbmStep_hasDup_mono st kv h)

theorem foldl_fbm_keysNodup (l : List (String × Product)) :
    ∀ st : List (String × Product) × Option GoErr,
      (mapKeys st.1).Nodup →
        (mapKeys ((l.foldl fileBulkMergeStep st).1)).Nodup := by
  induction l with
  | nil =>
    intro st h
    simpa using h
  | cons kv rest ih =>
    intro st h
    simp only [List.foldl_cons]
    exact ih _ (fbmStep_keysNodup st kv h)

theorem foldl_fbm_keyInv (l : List (String × Product)) :
    ∀ st : List (String × Product) × Option GoErr,
      KeyInv l → KeyInv st.1 → KeyInv ((l.foldl fileBulkMergeStep st).1) := by
  induction l with
  | nil =>
    intro st _ h
    simpa using h
  | cons kv rest ih =>
    intro st hl h
    simp only [List.foldl_cons]
    have hrest : KeyInv rest := fun kv2 h2 => hl kv2 (List.mem_cons_of_mem _ h2)
    have hkv : kv.1 = kv.2.ID := hl kv (List.mem_cons_self _ _)
    refine ih _ hrest ?_
    rcases fbmStep_fst_cases st kv with hc | hc <;> rw [hc]
    · exact h
    · exact keyInv_put kv.1 kv.2 hkv st.1 h

theorem foldl_memBulk_keyInv (ps : List Product) :
    ∀ st : List (String × Product) × Option GoErr,
      KeyInv st.1 → KeyInv ((ps.foldl memBulkStep st).1) := by
  induction ps with
  | nil =>
    intro st h
    simpa using h
  | cons p rest ih =>
    intro st h
    simp only [List.foldl_cons]
    exact ih _ (memBulkStep_keyInv st p h)

theorem fileCreate_live_ins (sv : SaveOutcome) (m : List (String × Product))
    (f : FileData) (p : Product) (hv : ValidRecord p)
    (hg : mapGet m p.ID = none) :
    fileCreate .live sv m f p
      = ((mapPut m p.ID p, (saveToFile sv (mapPut m p.ID p) f).1),
          (saveToFile sv (mapPut m p.ID p) f).2) := by
  obtain ⟨h1, h2, h3, h4⟩ := hv
  simp [fileCreate, Ctx.err, h1, h2, not_lt.2 h3, not_lt.2 h4, hg]

theorem fileCreate_live_dup (sv : SaveOutcome) (m : List (String × Product))
    (f : FileData) (p q : Product) (hv : ValidRecord p)
    (hg : mapGet m p.ID = some q) :
    fileCreate .live sv m f p = ((m, f), some (.duplicate p.ID)) := by
  obtain ⟨h1, h2, h3, h4⟩ := hv
  simp [fileCreate, Ctx.err, h1, h2, not_lt.2 h3, not_lt.2 h4, hg]

/-- A well-formed sample record used to instantiate witnesses. -/
def sampleA : Product :=
  { ID := "a1", Name := "Alpha", Price := 50, Quantity := 4, Category := "C1" }

/-- A second sample record with a distinct ID. -/
def sampleB : Product :=
  { ID := "b2", Name := "Beta", Price := 20, Quantity := 2, Category := "C2" }

/-- A record carrying `sampleA`'s ID but an empty Name. -/
def sampleBadName : Product :=
  { ID := "a1", Name := "", Price := 1, Quantity := 1, Category := "" }

/-- A record with both ID and Name empty. -/
def sampleNoID : Product :=
  { ID := "", Name := "", Price := 1, Quantity := 1, Category := "" }

/-- C1: for every valid record (non-empty ID and Name, non-negative Price
and Quantity) and non-expired context, on either backend whose map does
not contain the record's ID, `Create` succeeds and a subsequent
`Get(record.ID)` returns a record equal to the input (for the file
backend, under a successful save). -/
theorem C1_create_then_get (m : List (String × Product)) (f : FileData)
    (p : Product) (hv : ValidRecord p) (hg : mapGet m p.ID = none) :
    (memCreate .live m p = (mapPut m p.ID p, none)
      ∧ memGet .live (mapPut m p.ID p) p.ID = (p, none))
    ∧ (fileCreate .live .ok m f p
        = ((mapPut m p.ID p,
            .records (sortByID (mapVals (mapPut m p.ID p)))), none)
      ∧ fileGet .live (mapPut m p.ID p) p.ID = (p, none)) := by
  refine ⟨⟨memCreate_live_ins m p hv hg, ?_⟩, ?_, ?_⟩
  · simp [memGet, Ctx.err, mapGet_put_self]
  · rw [fileCreate_live_ins .ok m f p hv hg]
    simp [saveToFile]
  · simp [fileGet, Ctx.err, mapGet_put_self]

/-- C1 witness: the theorem applied at a concrete valid record over the
empty store. -/
theorem C1_create_then_get_witness :
    (memCreate .live [] sampleA = (mapPut [] sampleA.ID sampleA, none)
      ∧ memGet .live (mapPut [] sampleA.ID sampleA) sampleA.ID = (sampleA, none))
    ∧ (fileCreate .live .ok [] .missing sampleA
        = ((mapPut [] sampleA.ID sampleA,
            .records (sortByID (mapVals (mapPut [] sampleA.ID sampleA)))), none)
      ∧ fileGet .live (mapPut [] sampleA.ID sampleA) sampleA.ID = (sampleA, none)) :=
  C1_create_then_get [] .missing sampleA (by decide) (by decide)

/-- C2 counterexample: with `sampleA` stored under `"a1"`, `Create` of a
record carrying ID `"a1"` but an empty Name fails with an Invalid error,
not a Duplicate error — the claim's "every record carrying that ID fails
Duplicate" is false because validation runs before the duplicate check. -/
theorem C2_counterexample :
    (memCreate .live [("a1", sampleA)] sampleBadName).2
        = some (.invalid "name" "cannot be empty" (.str ""))
    ∧ GoErr.isDup (.invalid "name" "cannot be empty" (.str "")) = false := by
  constructor
  · decide
  · decide

/-- C2 (amended): for every store state with some ID present, every VALID
record (non-empty ID and Name, non-negative Price and Quantity) carrying
that ID, and a non-expired context, `Create` fails with a Duplicate error
and the store mapping — and, for the file backend, the persisted file —
is unchanged, so the record already stored under that ID is not altered. -/
theorem C2_duplicate_amended (m : List (String × Product)) (f : FileData)
    (sv : SaveOutcome) (id : String) (p q : Product)
    (hg : mapGet m id = some q) (hid : p.ID = id) (hv : ValidRecord p) :
    memCreate .live m p = (m, some (.duplicate id))
    ∧ fileCreate .live sv m f p = ((m, f), some (.duplicate id)) := by
  subst hid
  exact ⟨memCreate_live_dup m p q hv hg, fileCreate_live_dup sv m f p q hv hg⟩

/-- C2 witness: the amended theorem applied with `sampleA` resident and a
valid record carrying its ID. -/
theorem C2_duplicate_amended_witness :
    memCreate .live [("a1", sampleA)] { sampleA with Price := 9 }
        = ([("a1", sampleA)], some (.duplicate "a1"))
    ∧ fileCreate .live .ok [("a1", sampleA)] .missing { sampleA with Price := 9 }
        = (([("a1", sampleA)], .missing), some (.duplicate "a1")) :=
  C2_duplicate_amended [("a1", sampleA)] .missing .ok "a1" { sampleA with Price := 9 }
    sampleA (by decide) (by decide) (by decide)

theorem mem_put_cases (m : List (String × Product)) (k : String)
    (v : Product) (kv : String × Product) (h : kv ∈ mapPut m k v) :
    kv ∈ m ∨ kv = (k, v) := by
  induction m with
  | nil =>
    simp only [mapPut, List.mem_singleton] at h
    exact Or.inr h
  | cons kv0 rest ih =>
    rcases kv0 with ⟨k0, v0⟩
    by_cases h0 : k0 = k
    · have heq : mapPut ((k0, v0) :: rest) k v = (k, v) :: rest := by
        simp [mapPut, h0]
      rw [heq] at h
      rcases List.mem_cons.1 h with h | h
      · exact Or.inr h
      · exact Or.inl (List.mem_cons_of_mem _ h)
    · have heq : mapPut ((k0, v0) :: rest) k v = (k0, v0) :: mapPut rest k v := by
        simp [mapPut, h0]
      rw [heq] at h
      rcases List.mem_cons.1 h with h | h
      · exact Or.inl (h ▸ List.mem_cons_self _ _)
      · rcases ih h with h | h
        · exact Or.inl (List.mem_cons_of_mem _ h)
        · exact Or.inr h

theorem loadFold_keyInv (l : List Product) :
    ∀ m : List (String × Product), KeyInv m →
      KeyInv (l.foldl (fun m p => mapPut m p.ID p) m) := by
  induction l with
  | nil =>
    intro m h
    simpa using h
  | cons p rest ih =>
    intro m h
    simp only [List.foldl_cons]
    exact ih _ (keyInv_put p.ID p rfl m h)

theorem loadFold_keys_mono (l : List Product) :
    ∀ (m : List (String × Product)) (k : String), k ∈ mapKeys m →
      k ∈ mapKeys (l.foldl (fun m p => mapPut m p.ID p) m) := by
  induction l with
  | nil =>
    intro m k h
    simpa using h
  | cons p rest ih =>
    intro m k h
    simp only [List.foldl_cons]
    exact ih _ k ((mem_keys_put m p.ID k p).2 (Or.inl h))

theorem loadFold_present (l : List Product) :
    ∀ (m : List (String × Product)) (p : Product), p ∈ l →
      (mapGet (l.foldl (fun m p => mapPut m p.ID p) m) p.ID).isSome := by
  induction l with
  | nil =>
    intro m p h
    simp at h
  | cons p0 rest ih =>
    intro m p h
    simp only [List.foldl_cons]
    rcases List.mem_cons.1 h with rfl | h
    · refine (mem_keys_iff_get _ p.ID).1 ?_
      refine loadFold_keys_mono rest _ p.ID ?_
      exact (mem_keys_put m p.ID p.ID p).2 (Or.inr rfl)
    · exact ih _ p h

theorem loadFold_values (l : List Product) :
    ∀ (m : List (String × Product)) (kv : String × Product),
      kv ∈ l.foldl (fun m p => mapPut m p.ID p) m → kv ∈ m ∨ kv.2 ∈ l := by
  induction l with
  | nil =>
    intro m kv h
    simp only [List.foldl_nil] at h
    exact Or.inl h
  | cons p0 rest ih =>
    intro m kv h
    simp only [List.foldl_cons] at h
    rcases ih _ kv h with h | h
    · rcases mem_put_cases m p0.ID p0 kv h with h | h
      · exact Or.inl h
      · subst h
        exact Or.inr (List.mem_cons_self _ _)
    · exact Or.inr (List.mem_cons_of_mem _ h)

/-- C5: file-store construction on a missing or empty file yields the
empty store; a present well-formed file is loaded into the map keyed by
each record's ID (every listed record's ID present, every entry's value
drawn from the file, keys matching the stored IDs); malformed content
fails construction with no store returned. -/
theorem C5_construction :
    NewFileStore .missing = some []
    ∧ NewFileStore .empty = some []
    ∧ NewFileStore .malformed = none
    ∧ ∀ (l : List Product) (m2 : List (String × Product)),
        NewFileStore (.records l) = some m2 →
          KeyInv m2
          ∧ (∀ p ∈ l, (mapGet m2 p.ID).isSome)
          ∧ (∀ kv ∈ m2, kv.2 ∈ l) := by
  refine ⟨rfl, rfl, rfl, ?_⟩
  intro l m2 h
  simp only [NewFileStore, Option.some.injEq] at h
  subst h
  refine ⟨loadFold_keyInv l [] keyInv_nil, ?_, ?_⟩
  · intro p hp
    exact loadFold_present l [] p hp
  · intro kv hkv
    rcases loadFold_values l [] kv hkv with h | h
    · simp at h
    · exact h

/-- C5 witness: loading a one-record file. -/
theorem C5_construction_witness :
    KeyInv [("a1", sampleA)]
    ∧ (∀ p ∈ [sampleA], (mapGet [("a1", sampleA)] p.ID).isSome)
    ∧ (∀ kv ∈ [("a1", sampleA)], kv.2 ∈ [sampleA]) :=
  C5_construction.2.2.2 [sampleA] [("a1", sampleA)] (by decide)

/-- C9: for every present id and every record with valid Name, Price and
Quantity, `Update(id, record)` (both backends, live context) stores the
record with its ID overwritten to the path id — the caller-supplied
record.ID is unconstrained and never validated — and a lookup at id then
yields that record; for every absent id, Update fails with NotFound and
neither the map nor the file changes. -/
theorem C9_update_semantics (m : List (String × Product)) (f : FileData)
    (sv : SaveOutcome) (id : String) (p : Product)
    (hv : p.Name ≠ "" ∧ 0 ≤ p.Price ∧ 0 ≤ p.Quantity) :
    (∀ q, mapGet m id = some q →
      memUpdate .live m id p = (mapPut m id { p with ID := id }, none)
      ∧ mapGet (mapPut m id { p with ID := id }) id = some { p with ID := id }
      ∧ ({ p with ID := id }).ID = id
      ∧ fileUpdate .live .ok m f id p
          = ((mapPut m id { p with ID := id },
              .records (sortByID (mapVals (mapPut m id { p with ID := id })))),
             none))
    ∧ (mapGet m id = none →
      memUpdate .live m id p = (m, some (.notFound id))
      ∧ fileUpdate .live sv m f id p = ((m, f), some (.notFound id))) := by
  obtain ⟨h1, h2, h3⟩ := hv
  constructor
  · intro q hq
    refine ⟨?_, mapGet_put_self m id _, rfl, ?_⟩
    · simp [memUpdate, Ctx.err, h1, not_lt.2 h2, not_lt.2 h3, hq]
    · simp [fileUpdate, Ctx.err, h1, not_lt.2 h2, not_lt.2 h3, hq, saveToFile]
  · intro hq
    constructor
    · simp [memUpdate, Ctx.err, h1, not_lt.2 h2, not_lt.2 h3, hq]
    · simp [fileUpdate, Ctx.err, h1, not_lt.2 h2, not_lt.2 h3, hq]

/-- C9 witness: updating present id `"a1"` with a record carrying a
different ID (`"b2"`), and updating an absent id. -/
theorem C9_update_semantics_witness :
    (memUpdate .live [("a1", sampleA)] "a1" sampleB
        = (mapPut [("a1", sampleA)] "a1" { sampleB with ID := "a1" }, none)
      ∧ mapGet (mapPut [("a1", sampleA)] "a1" { sampleB with ID := "a1" }) "a1"
          = some { sampleB with ID := "a1" }
      ∧ ({ sampleB with ID := "a1" }).ID = "a1"
      ∧ fileUpdate .live .ok [("a1", sampleA)] .missing "a1" sampleB
          = ((mapPut [("a1", sampleA)] "a1" { sampleB with ID := "a1" },
              .records (sortByID (mapVals
                (mapPut [("a1", sampleA)] "a1" { sampleB with ID := "a1" })))),
             none))
    ∧ (memUpdate .live [] "zz" sampleB = ([], some (.notFound "zz"))
      ∧ fileUpdate .live .ok [] .missing "zz" sampleB
          = (([], .missing), some (.notFound "zz"))) :=
  ⟨(C9_update_semantics [("a1", sampleA)] .missing .ok "a1" sampleB
      (by decide)).1 sampleA (by decide),
   (C9_update_semantics [] .missing .ok "zz" sampleB (by decide)).2 (by decide)⟩

/-- C3 counterexample: a record with both ID and Name empty.  The
validator's first violated field (among Name, Price, Quantity) is
`name`, but `Create` returns an Invalid error naming `id`, because its
in-store copy of the checks tests ID emptiness first. -/
theorem C3_counterexample :
    ValidateProduct sampleNoID
        = some (.invalid "name" "name cannot be empty" (.str ""))
    ∧ (memCreate .live [] sampleNoID).2
        = some (.invalid "id" "cannot be empty" (.str ""))
    ∧ GoErr.invField (.invalid "id" "cannot be empty" (.str ""))
        ≠ GoErr.invField (.invalid "name" "name cannot be empty" (.str "")) := by
  refine ⟨by decide, by decide, by decide⟩

/-- C3 (amended): `ValidateProduct` checks, in order, emptiness of Name,
non-negativity of Price, non-negativity of Quantity, and returns an
Invalid error naming exactly the first violated field; under a live
context, Update — and Create for records with a NON-EMPTY ID — given a
record violating any of these return an Invalid error naming that same
field (the reason string differs) and perform no mutation; Create given
an empty ID instead returns Invalid naming `id` before those checks. -/
theorem C3_validation_amended :
    (∀ p : Product, p.Name = "" →
      ValidateProduct p = some (.invalid "name" "name cannot be empty" (.str p.Name)))
    ∧ (∀ p : Product, p.Name ≠ "" → p.Price < 0 →
      ValidateProduct p
        = some (.invalid "price" "price must be non-negative" (.num p.Price)))
    ∧ (∀ p : Product, p.Name ≠ "" → ¬ p.Price < 0 → p.Quantity < 0 →
      ValidateProduct p
        = some (.invalid "quantity" "quantity must be non-negative" (.int p.Quantity)))
    ∧ (∀ p : Product, p.Name ≠ "" → ¬ p.Price < 0 → ¬ p.Quantity < 0 →
      ValidateProduct p = none)
    ∧ (∀ (m : List (String × Product)) (f : FileData) (sv : SaveOutcome)
        (p : Product) (e : GoErr), p.ID ≠ "" → ValidateProduct p = some e →
        ∃ r : GoErr, memCreate .live m p = (m, some r)
          ∧ fileCreate .live sv m f p = ((m, f), some r)
          ∧ r.invField = e.invField ∧ r.hasInvalid = true)
    ∧ (∀ (m : List (String × Product)) (f : FileData) (sv : SaveOutcome)
        (id : String) (p : Product) (e : GoErr), ValidateProduct p = some e →
        ∃ r : GoErr, memUpdate .live m id p = (m, some r)
          ∧ fileUpdate .live sv m f id p = ((m, f), some r)
          ∧ r.invField = e.invField ∧ r.hasInvalid = true)
    ∧ (∀ (m : List (String × Product)) (f : FileData) (sv : SaveOutcome)
        (p : Product), p.ID = "" →
        memCreate .live m p = (m, some (.invalid "id" "cannot be empty" (.str p.ID)))
        ∧ fileCreate .live sv m f p
            = ((m, f), some (.invalid "id" "cannot be empty" (.str p.ID)))) := by
  refine ⟨?_, ?_, ?_, ?_, ?_, ?_, ?_⟩
  · intro p h2
    simp [ValidateProduct, h2]
  · intro p h2 h3
    simp [ValidateProduct, h2, h3]
  · intro p h2 h3 h4
    simp [ValidateProduct, h2, h3, h4]
  · intro p h2 h3 h4
    simp [ValidateProduct, h2, h3, h4]
  · intro m f sv p e hid h
    by_cases h2 : p.Name = ""
    · simp only [ValidateProduct, if_pos h2, Option.some.injEq] at h
      refine ⟨.invalid "name" "cannot be empty" (.str p.Name), ?_, ?_, ?_, rfl⟩
      · simp [memCreate, Ctx.err, hid, h2]
      · simp [fileCreate, Ctx.err, hid, h2]
      · rw [← h]
        rfl
    · by_cases h3 : p.Price < 0
      · simp only [ValidateProduct, if_neg h2, if_pos h3, Option.some.injEq] at h
        refine ⟨.invalid "price" "must be non-negative" (.num p.Price), ?_, ?_, ?_, rfl⟩
        · simp [memCreate, Ctx.err, hid, h2, h3]
        · simp [fileCreate, Ctx.err, hid, h2, h3]
        · rw [← h]
          rfl
      · by_cases h4 : p.Quantity < 0
        · simp only [ValidateProduct, if_neg h2, if_neg h3, if_pos h4,
            Option.some.injEq] at h
          refine ⟨.invalid "quantity" "must be non-negative" (.int p.Quantity),
            ?_, ?_, ?_, rfl⟩
          · simp [memCreate, Ctx.err, hid, h2, h3, h4]
          · simp [fileCreate, Ctx.err, hid, h2, h3, h4]
          · rw [← h]
            rfl
        · simp [ValidateProduct, h2, h3, h4] at h
  · intro m f sv id p e h
    by_cases h2 : p.Name = ""
    · simp only [ValidateProduct, if_pos h2, Option.some.injEq] at h
      refine ⟨.invalid "name" "cannot be empty" (.str p.Name), ?_, ?_, ?_, rfl⟩
      · simp [memUpdate, Ctx.err, h2]
      · simp [fileUpdate, Ctx.err, h2]
      · rw [← h]
        rfl
    · by_cases h3 : p.Price < 0
      · simp only [ValidateProduct, if_neg h2, if_pos h3, Option.some.injEq] at h
        refine ⟨.invalid "price" "must be non-negative" (.num p.Price), ?_, ?_, ?_, rfl⟩
        · simp [memUpdate, Ctx.err, h2, h3]
        · simp [fileUpdate, Ctx.err, h2, h3]
        · rw [← h]
          rfl
      · by_cases h4 : p.Quantity < 0
        · simp only [ValidateProduct, if_neg h2, if_neg h3, if_pos h4,
            Option.some.injEq] at h
          refine ⟨.invalid "quantity" "must be non-negative" (.int p.Quantity),
            ?_, ?_, ?_, rfl⟩
          · simp [memUpdate, Ctx.err, h2, h3, h4]
          · simp [fileUpdate, Ctx.err, h2, h3, h4]
          · rw [← h]
            rfl
        · simp [ValidateProduct, h2, h3, h4] at h
  · intro m f sv p hid
    constructor
    · simp [memCreate, Ctx.err, hid]
    · simp [fileCreate, Ctx.err, hid]

/-- C3 witness: the amended theorem applied at concrete records —
validator outcomes for each field, Create/Update rejections with matching
field names, and the empty-ID branch of Create. -/
theorem C3_validation_amended_witness :
    ValidateProduct sampleBadName
        = some (.invalid "name" "name cannot be empty" (.str sampleBadName.Name))
    ∧ ValidateProduct { sampleA with Price := -1 }
        = some (.invalid "price" "price must be non-negative"
            (.num ({ sampleA with Price := -1 }).Price))
    ∧ ValidateProduct { sampleA with Quantity := -5 }
        = some (.invalid "quantity" "quantity must be non-negative"
            (.int ({ sampleA with Quantity := -5 }).Quantity))
    ∧ ValidateProduct sampleA = none
    ∧ (∃ r : GoErr, memCreate .live [] sampleBadName = ([], some r)
        ∧ fileCreate .live .ok [] .missing sampleBadName = (([], .missing), some r)
        ∧ r.invField
            = GoErr.invField (.invalid "name" "name cannot be empty" (.str ""))
        ∧ r.hasInvalid = true)
    ∧ (∃ r : GoErr, memUpdate .live [] "a1" sampleBadName = ([], some r)
        ∧ fileUpdate .live .ok [] .missing "a1" sampleBadName
            = (([], .missing), some r)
        ∧ r.invField
            = GoErr.invField (.invalid "name" "name cannot be empty" (.str ""))
        ∧ r.hasInvalid = true)
    ∧ (memCreate .live [] sampleNoID
        = ([], some (.invalid "id" "cannot be empty" (.str sampleNoID.ID)))
      ∧ fileCreate .live .ok [] .missing sampleNoID
        = (([], .missing), some (.invalid "id" "cannot be empty" (.str sampleNoID.ID)))) :=
  ⟨C3_validation_amended.1 sampleBadName (by decide),
   C3_validation_amended.2.1 { sampleA with Price := -1 } (by decide) (by decide),
   C3_validation_amended.2.2.1 { sampleA with Quantity := -5 } (by decide)
     (by decide) (by decide),
   C3_validation_amended.2.2.2.1 sampleA (by decide) (by decide) (by decide),
   C3_validation_amended.2.2.2.2.1 [] .missing .ok sampleBadName
     (.invalid "name" "name cannot be empty" (.str "")) (by decide) (by decide),
   C3_validation_amended.2.2.2.2.2.1 [] .missing .ok "a1" sampleBadName
     (.invalid "name" "name cannot be empty" (.str "")) (by decide),
   C3_validation_amended.2.2.2.2.2.2 [] .missing .ok sampleNoID (by decide)⟩

/-- C4: after every successful file-store mutation the canonical file
holds the entire current map serialized sorted by ID ascending (the
serialization is a sorted permutation of the map's values); when the
save I/O fails, the operation returns the save error while the in-memory
mutation remains applied and the canonical file is unchanged (the write
targeted a temporary sibling file renamed atomically on success). -/
theorem C4_persistence (m : List (String × Product)) (f : FileData)
    (id : String) (p q : Product) (t : String) :
    (List.Sorted (fun a b : Product => a.ID ≤ b.ID) (sortByID (mapVals m))
      ∧ List.Perm (sortByID (mapVals m)) (mapVals m))
    ∧ (ValidRecord p → mapGet m p.ID = none →
        fileCreate .live .ok m f p
          = ((mapPut m p.ID p,
              .records (sortByID (mapVals (mapPut m p.ID p)))), none)
        ∧ fileCreate .live (.fail t) m f p
          = ((mapPut m p.ID p, f), some (.ioFail t)))
    ∧ ((p.Name ≠ "" ∧ 0 ≤ p.Price ∧ 0 ≤ p.Quantity) → mapGet m id = some q →
        fileUpdate .live .ok m f id p
          = ((mapPut m id { p with ID := id },
              .records (sortByID (mapVals (mapPut m id { p with ID := id })))),
             none)
        ∧ fileUpdate .live (.fail t) m f id p
          = ((mapPut m id { p with ID := id }, f), some (.ioFail t)))
    ∧ (mapGet m id = some q →
        fileDelete .live .ok m f id
          = ((mapDel m id, .records (sortByID (mapVals (mapDel m id)))), none)
        ∧ fileDelete .live (.fail t) m f id
          = ((mapDel m id, f), some (.ioFail t))) := by
  refine ⟨⟨sortByID_sorted _, sortByID_perm _⟩, ?_, ?_, ?_⟩
  · intro hv hg
    constructor
    · rw [fileCreate_live_ins .ok m f p hv hg]
      simp [saveToFile]
    · rw [fileCreate_live_ins (.fail t) m f p hv hg]
      simp [saveToFile]
  · intro hv hg
    obtain ⟨h1, h2, h3⟩ := hv
    constructor
    · simp [fileUpdate, Ctx.err, h1, not_lt.2 h2, not_lt.2 h3, hg, saveToFile]
    · simp [fileUpdate, Ctx.err, h1, not_lt.2 h2, not_lt.2 h3, hg, saveToFile]
  · intro hg
    constructor
    · simp [fileDelete, Ctx.err, hg, saveToFile]
    · simp [fileDelete, Ctx.err, hg, saveToFile]

/-- C4 witness: create, update and delete against a one-record store,
each under a successful and a failing save. -/
theorem C4_persistence_witness :
    (List.Sorted (fun a b : Product => a.ID ≤ b.ID)
        (sortByID (mapVals [("b2", sampleB)]))
      ∧ List.Perm (sortByID (mapVals [("b2", sampleB)])) (mapVals [("b2", sampleB)]))
    ∧ (fileCreate .live .ok [("b2", sampleB)] .missing sampleA
        = ((mapPut [("b2", sampleB)] sampleA.ID sampleA,
            .records (sortByID (mapVals (mapPut [("b2", sampleB)] sampleA.ID sampleA)))),
           none)
      ∧ fileCreate .live (.fail "disk full") [("b2", sampleB)] .missing sampleA
        = ((mapPut [("b2", sampleB)] sampleA.ID sampleA, .missing),
           some (.ioFail "disk full")))
    ∧ (fileUpdate .live .ok [("b2", sampleB)] .missing "b2" sampleA
        = ((mapPut [("b2", sampleB)] "b2" { sampleA with ID := "b2" },
            .records (sortByID (mapVals
              (mapPut [("b2", sampleB)] "b2" { sampleA with ID := "b2" })))),
           none)
      ∧ fileUpdate .live (.fail "disk full") [("b2", sampleB)] .missing "b2" sampleA
        = ((mapPut [("b2", sampleB)] "b2" { sampleA with ID := "b2" }, .missing),
           some (.ioFail "disk full")))
    ∧ (fileDelete .live .ok [("b2", sampleB)] .missing "b2"
        = ((mapDel [("b2", sampleB)] "b2",
            .records (sortByID (mapVals (mapDel [("b2", sampleB)] "b2")))), none)
      ∧ fileDelete .live (.fail "disk full") [("b2", sampleB)] .missing "b2"
        = ((mapDel [("b2", sampleB)] "b2", .missing), some (.ioFail "disk full"))) :=
  ⟨(C4_persistence [("b2", sampleB)] .missing "b2" sampleA sampleB "disk full").1,
   (C4_persistence [("b2", sampleB)] .missing "b2" sampleA sampleB "disk full").2.1
     (by decide) (by decide),
   (C4_persistence [("b2", sampleB)] .missing "b2" sampleA sampleB "disk full").2.2.1
     (by decide) (by decide),
   (C4_persistence [("b2", sampleB)] .missing "b2" sampleA sampleB "disk full").2.2.2
     (by decide)⟩

/-- C8: every store operation of both backends, invoked with an
already-expired (cancelled or past-deadline) context, fails immediately
with the context's error and mutates nothing; in particular `BulkImport`
with a pre-cancelled context on an empty store returns the cancellation
error and leaves the store empty (instantiate `m := []`). -/
theorem C8_expired_context (ctx : Ctx) (e : GoErr) (h : ctx.err = some e)
    (m : List (String × Product)) (f : FileData) (sv : SaveOutcome)
    (id : String) (p : Product) (flt : ListFilter) (ps : List Product) :
    memCreate ctx m p = (m, some e)
    ∧ memGet ctx m id = (emptyProduct, some e)
    ∧ memUpdate ctx m id p = (m, some e)
    ∧ memDelete ctx m id = (m, some e)
    ∧ memList ctx m flt = ([], some e)
    ∧ memBulkImport ctx m ps = (m, some e)
    ∧ fileCreate ctx sv m f p = ((m, f), some e)
    ∧ fileGet ctx m id = (emptyProduct, some e)
    ∧ fileUpdate ctx sv m f id p = ((m, f), some e)
    ∧ fileDelete ctx sv m f id = ((m, f), some e)
    ∧ fileList ctx m flt = ([], some e)
    ∧ fileBulkImport ctx sv m f ps = ((m, f), some e) := by
  cases ctx with
  | live => simp [Ctx.err] at h
  | canceled =>
    simp only [Ctx.err, Option.some.injEq] at h
    subst h
    exact ⟨rfl, rfl, rfl, rfl, rfl, rfl, rfl, rfl, rfl, rfl, rfl, rfl⟩
  | deadlineExceeded =>
    simp only [Ctx.err, Option.some.injEq] at h
    subst h
    exact ⟨rfl, rfl, rfl, rfl, rfl, rfl, rfl, rfl, rfl, rfl, rfl, rfl⟩

/-- C8 witness: all twelve operations rejected by a pre-cancelled context
on the empty store. -/
theorem C8_expired_context_witness :
    memCreate .canceled [] sampleA = ([], some .canceled)
    ∧ memGet .canceled [] "a1" = (emptyProduct, some .canceled)
    ∧ memUpdate .canceled [] "a1" sampleA = ([], some .canceled)
    ∧ memDelete .canceled [] "a1" = ([], some .canceled)
    ∧ memList .canceled []
        { Category := "", MinPrice := none, MaxPrice := none, SortBy := "", Order := "" }
        = ([], some .canceled)
    ∧ memBulkImport .canceled [] [sampleA] = ([], some .canceled)
    ∧ fileCreate .canceled .ok [] .missing sampleA = (([], .missing), some .canceled)
    ∧ fileGet .canceled [] "a1" = (emptyProduct, some .canceled)
    ∧ fileUpdate .canceled .ok [] .missing "a1" sampleA = (([], .missing), some .canceled)
    ∧ fileDelete .canceled .ok [] .missing "a1" = (([], .missing), some .canceled)
    ∧ fileList .canceled []
        { Category := "", MinPrice := none, MaxPrice := none, SortBy := "", Order := "" }
        = ([], some .canceled)
    ∧ fileBulkImport .canceled .ok [] .missing [sampleA]
        = (([], .missing), some .canceled) :=
  C8_expired_context .canceled .canceled rfl [] .missing .ok "a1" sampleA
    { Category := "", MinPrice := none, MaxPrice := none, SortBy := "", Order := "" }
    [sampleA]

/-! ### Map-shape case lemmas for the key invariant -/

theorem memCreate_map_cases (ctx : Ctx) (m : List (String × Product))
    (p : Product) :
    (memCreate ctx m p).1 = m ∨ (memCreate ctx m p).1 = mapPut m p.ID p := by
  cases ctx with
  | live => exact memCreate_fst_cases m p
  | canceled => exact Or.inl rfl
  | deadlineExceeded => exact Or.inl rfl

theorem memUpdate_map_cases (ctx : Ctx) (m : List (String × Product))
    (id : String) (p : Product) :
    (memUpdate ctx m id p).1 = m
    ∨ (memUpdate ctx m id p).1 = mapPut m id { p with ID := id } := by
  unfold memUpdate
  cases hctx : ctx.err with
  | some e => exact Or.inl rfl
  | none =>
    by_cases h2 : p.Name = ""
    · left
      simp [h2]
    · by_cases h3 : p.Price < 0
      · left
        simp [h2, h3]
      · by_cases h4 : p.Quantity < 0
        · left
          simp [h2, h3, h4]
        · cases hg : mapGet m id with
          | none =>
            left
            simp [h2, h3, h4, hg]
          | some q =>
            right
            simp [h2, h3, h4, hg]

theorem memDelete_map_cases (ctx : Ctx) (m : List (String × Product))
    (id : String) :
    (memDelete ctx m id).1 = m ∨ (memDelete ctx m id).1 = mapDel m id := by
  unfold memDelete
  cases hctx : ctx.err with
  | some e => exact Or.inl rfl
  | none =>
    cases hg : mapGet m id with
    | none =>
      left
      simp [hg]
    | some q =>
      right
      simp [hg]

theorem fileCreate_map_cases (ctx : Ctx) (sv : SaveOutcome)
    (m : List (String × Product)) (f : FileData) (p : Product) :
    (fileCreate ctx sv m f p).1.1 = m
    ∨ (fileCreate ctx sv m f p).1.1 = mapPut m p.ID p := by
  unfold fileCreate
  cases hctx : ctx.err with
  | some e => exact Or.inl rfl
  | none =>
    by_cases h1 : p.ID = ""
    · left
      simp [h1]
    · by_cases h2 : p.Name = ""
      · left
        simp [h1, h2]
      · by_cases h3 : p.Price < 0
        · left
          simp [h1, h2, h3]
        · by_cases h4 : p.Quantity < 0
          · left
            simp [h1, h2, h3, h4]
          · cases hg : mapGet m p.ID with
            | some q =>
              left
              simp [h1, h2, h3, h4, hg]
            | none =>
              right
              simp [h1, h2, h3, h4, hg]

theorem fileUpdate_map_cases (ctx : Ctx) (sv : SaveOutcome)
    (m : List (String × Product)) (f : FileData) (id : String) (p : Product) :
    (fileUpdate ctx sv m f id p).1.1 = m
    ∨ (fileUpdate ctx sv m f id p).1.1 = mapPut m id { p with ID := id } := by
  unfold fileUpdate
  cases hctx : ctx.err with
  | some e => exact Or.inl rfl
  | none =>
    by_cases h2 : p.Name = ""
    · left
      simp [h2]
    · by_cases h3 : p.Price < 0
      · left
        simp [h2, h3]
      · by_cases h4 : p.Quantity < 0
        · left
          simp [h2, h3, h4]
        · cases hg : mapGet m id with
          | none =>
            left
            simp [h2, h3, h4, hg]
          | some q =>
            right
            simp [h2, h3, h4, hg]

theorem fileDelete_map_cases (ctx : Ctx) (sv : SaveOutcome)
    (m : List (String × Product)) (f : FileData) (id : String) :
    (fileDelete ctx sv m f id).1.1 = m
    ∨ (fileDelete ctx sv m f id).1.1 = mapDel m id := by
  unfold fileDelete
  cases hctx : ctx.err with
  | some e => exact Or.inl rfl
  | none =>
    cases hg : mapGet m id with
    | none =>
      left
      simp [hg]
    | some q =>
      right
      simp [hg]

theorem memBulkImport_keyInv (ctx : Ctx) (m : List (String × Product))
    (ps : List Product) (h : KeyInv m) : KeyInv (memBulkImport ctx m ps).1 := by
  unfold memBulkImport
  cases hctx : ctx.err with
  | some e => exact h
  | none => exact foldl_memBulk_keyInv ps (m, none) h

theorem fileBulkImport_map_shape (ctx : Ctx) (sv : SaveOutcome)
    (m : List (String × Product)) (f : FileData) (ps : List Product) :
    (fileBulkImport ctx sv m f ps).1.1 = m
    ∨ (fileBulkImport ctx sv m f ps).1.1
        = ((ps.foldl fileBulkWorkerStep ([], [])).1.foldl fileBulkMergeStep
            (m, (ps.foldl fileBulkWorkerStep ([], [])).2.foldl joinErr none)).1 := by
  unfold fileBulkImport
  cases hctx : ctx.err with
  | some e => exact Or.inl rfl
  | none =>
    by_cases hne : ps.isEmpty
    · left
      simp [hne]
    · right
      cases sv with
      | ok => simp [hne, saveToFile]
      | fail t => simp [hne, saveToFile]

theorem fileBulkImport_keyInv (ctx : Ctx) (sv : SaveOutcome)
    (m : List (String × Product)) (f : FileData) (ps : List Product)
    (h : KeyInv m) : KeyInv (fileBulkImport ctx sv m f ps).1.1 := by
  rcases fileBulkImport_map_shape ctx sv m f ps with hc | hc <;> rw [hc]
  · exact h
  · exact foldl_fbm_keyInv _ _
      (foldl_fbw_keyInv ps ([], []) keyInv_nil) h

/-- C10: every operation of both backends — construction/file load,
Create, Update, Delete, BulkImport — preserves the invariant that each
map entry's key equals the ID field of the record stored there;
consequently `Get(id)` (either backend) never returns a record whose ID
differs from the requested id. -/
theorem C10_key_invariant (ctx : Ctx) (sv : SaveOutcome)
    (m : List (String × Product)) (f : FileData) (id : String) (p : Product)
    (ps : List Product) (h : KeyInv m) :
    KeyInv (memCreate ctx m p).1
    ∧ KeyInv (memUpdate ctx m id p).1
    ∧ KeyInv (memDelete ctx m id).1
    ∧ KeyInv (memBulkImport ctx m ps).1
    ∧ KeyInv (fileCreate ctx sv m f p).1.1
    ∧ KeyInv (fileUpdate ctx sv m f id p).1.1
    ∧ KeyInv (fileDelete ctx sv m f id).1.1
    ∧ KeyInv (fileBulkImport ctx sv m f ps).1.1
    ∧ (∀ (fd : FileData) (m2 : List (String × Product)),
        NewFileStore fd = some m2 → KeyInv m2)
    ∧ ((memGet ctx m id).2 = none → (memGet ctx m id).1.ID = id)
    ∧ ((fileGet ctx m id).2 = none → (fileGet ctx m id).1.ID = id) := by
  refine ⟨?_, ?_, ?_, memBulkImport_keyInv ctx m ps h, ?_, ?_, ?_,
    fileBulkImport_keyInv ctx sv m f ps h, ?_, ?_, ?_⟩
  · rcases memCreate_map_cases ctx m p with hc | hc <;> rw [hc]
    · exact h
    · exact keyInv_put p.ID p rfl m h
  · rcases memUpdate_map_cases ctx m id p with hc | hc <;> rw [hc]
    · exact h
    · exact keyInv_put id { p with ID := id } rfl m h
  · rcases memDelete_map_cases ctx m id with hc | hc <;> rw [hc]
    · exact h
    · exact keyInv_del m id h
  · rcases fileCreate_map_cases ctx sv m f p with hc | hc <;> rw [hc]
    · exact h
    · exact keyInv_put p.ID p rfl m h
  · rcases fileUpdate_map_cases ctx sv m f id p with hc | hc <;> rw [hc]
    · exact h
    · exact keyInv_put id { p with ID := id } rfl m h
  · rcases fileDelete_map_cases ctx sv m f id with hc | hc <;> rw [hc]
    · exact h
    · exact keyInv_del m id h
  · intro fd m2 hfd
    cases fd with
    | missing =>
      simp only [NewFileStore, Option.some.injEq] at hfd
      subst hfd
      exact keyInv_nil
    | empty =>
      simp only [NewFileStore, Option.some.injEq] at hfd
      subst hfd
      exact keyInv_nil
    | records l =>
      simp only [NewFileStore, Option.some.injEq] at hfd
      subst hfd
      exact loadFold_keyInv l [] keyInv_nil
    | malformed => simp [NewFileStore] at hfd
  · unfold memGet
    cases hctx : ctx.err with
    | some e =>
      intro hcontra
      simp at hcontra
    | none =>
      cases hg : mapGet m id with
      | none =>
        intro hcontra
        simp at hcontra
      | some v =>
        intro _
        exact (keyInv_get m id v h hg).symm
  · unfold fileGet
    cases hctx : ctx.err with
    | some e =>
      intro hcontra
      simp at hcontra
    | none =>
      cases hg : mapGet m id with
      | none =>
        intro hcontra
        simp at hcontra
      | some v =>
        intro _
        exact (keyInv_get m id v h hg).symm

/-- C10 witness: the invariant instantiated on a concrete one-record
store with a live context. -/
theorem C10_key_invariant_witness :
    KeyInv (memCreate .live [("a1", sampleA)] sampleB).1
    ∧ KeyInv (memUpdate .live [("a1", sampleA)] "a1" sampleB).1
    ∧ KeyInv (memDelete .live [("a1", sampleA)] "a1").1
    ∧ KeyInv (memBulkImport .live [("a1", sampleA)] [sampleB]).1
    ∧ KeyInv (fileCreate .live .ok [("a1", sampleA)] .missing sampleB).1.1
    ∧ KeyInv (fileUpdate .live .ok [("a1", sampleA)] .missing "a1" sampleB).1.1
    ∧ KeyInv (fileDelete .live .ok [("a1", sampleA)] .missing "a1").1.1
    ∧ KeyInv (fileBulkImport .live .ok [("a1", sampleA)] .missing [sampleB]).1.1
    ∧ (∀ (fd : FileData) (m2 : List (String × Product)),
        NewFileStore fd = some m2 → KeyInv m2)
    ∧ ((memGet .live [("a1", sampleA)] "a1").2 = none →
        (memGet .live [("a1", sampleA)] "a1").1.ID = "a1")
    ∧ ((fileGet .live [("a1", sampleA)] "a1").2 = none →
        (fileGet .live [("a1", sampleA)] "a1").1.ID = "a1") :=
  C10_key_invariant .live .ok [("a1", sampleA)] .missing "a1" sampleB [sampleB]
    (by decide)

/-! ### Bulk-import end-to-end lemmas -/

theorem memBulkImport_live (m : List (String × Product)) (ps : List Product) :
    memBulkImport .live m ps = ps.foldl memBulkStep (m, none) := rfl

/-- The staged-map/aggregate state of `FileStore.BulkImport` after the
worker phase and the merge loop (the two folds of `fileBulkImport`). -/
def fileBulkWorkSt (m : List (String × Product)) (ps : List Product) :
    List (String × Product) × Option GoErr :=
  let ws := ps.foldl fileBulkWorkerStep ([], [])
  ws.1.foldl fileBulkMergeStep (m, ws.2.foldl joinErr none)

theorem fileBulkImport_live_ok (m : List (String × Product)) (f : FileData)
    (ps : List Product) (hne : ps.isEmpty = false) :
    fileBulkImport .live .ok m f ps
      = (((fileBulkWorkSt m ps).1,
          .records (sortByID (mapVals (fileBulkWorkSt m ps).1))),
         (fileBulkWorkSt m ps).2) := by
  simp [fileBulkImport, Ctx.err, hne, saveToFile, fileBulkWorkSt]

theorem fileBulkImport_live_fail (m : List (String × Product)) (f : FileData)
    (ps : List Product) (t : String) (hne : ps.isEmpty = false) :
    fileBulkImport .live (.fail t) m f ps
      = (((fileBulkWorkSt m ps).1, f),
         some (match (fileBulkWorkSt m ps).2 with
               | none => .ioFail t
               | some c => .join c (.ioFail t))) := by
  simp [fileBulkImport, Ctx.err, hne, saveToFile, fileBulkWorkSt]

theorem fileBulkImport_live_hasDup (sv : SaveOutcome)
    (m : List (String × Product)) (f : FileData) (ps : List Product)
    (hne : ps.isEmpty = false)
    (hd : optHasDup (fileBulkWorkSt m ps).2 = true) :
    optHasDup (fileBulkImport .live sv m f ps).2 = true
    ∧ ((fileBulkImport .live sv m f ps).2).isSome = true := by
  obtain ⟨c, hc⟩ := Option.isSome_iff_exists.1 (optHasDup_isSome _ hd)
  cases sv with
  | ok =>
    rw [fileBulkImport_live_ok m f ps hne]
    exact ⟨hd, optHasDup_isSome _ hd⟩
  | fail t =>
    rw [fileBulkImport_live_fail m f ps t hne]
    rw [hc] at hd ⊢
    simp only [optHasDup] at hd
    constructor
    · simp [optHasDup, GoErr.hasDup, hd]
    · simp

theorem fileBulkImport_live_map (sv : SaveOutcome)
    (m : List (String × Product)) (f : FileData) (ps : List Product)
    (hne : ps.isEmpty = false) :
    (fileBulkImport .live sv m f ps).1.1 = (fileBulkWorkSt m ps).1 := by
  cases sv with
  | ok => rw [fileBulkImport_live_ok m f ps hne]
  | fail t => rw [fileBulkImport_live_fail m f ps t hne]

theorem fileBulkWorkSt_keysNodup (m : List (String × Product))
    (ps : List Product) (h : (mapKeys m).Nodup) :
    (mapKeys (fileBulkWorkSt m ps).1).Nodup :=
  foldl_fbm_keysNodup _ _ h

theorem fileBulkWorker_dup_pair (m0 : List (String × Product))
    (l1 l2 l3 : List Product) (p1 p2 : Product)
    (h1 : ValidRecord p1) (h2 : ValidRecord p2) (hid : p1.ID = p2.ID) :
    ∃ e ∈ ((l1 ++ p1 :: l2 ++ p2 :: l3).foldl fileBulkWorkerStep
        ((m0, []) : List (String × Product) × List GoErr)).2,
      e.hasDup = true := by
  rw [List.foldl_append, List.foldl_cons, List.foldl_append, List.foldl_cons]
  set w1 := List.foldl fileBulkWorkerStep (m0, []) l1 with hw1
  set w2 := fileBulkWorkerStep w1 p1 with hw2
  set w3 := List.foldl fileBulkWorkerStep w2 l2 with hw3
  have hmem2 : p1.ID ∈ mapKeys w2.1 := fbwStep_valid_mem w1 p1 h1
  have hmem3 : p2.ID ∈ mapKeys w3.1 := by
    rw [← hid]
    exact foldl_fbw_keys_mono l2 w2 p1.ID hmem2
  obtain ⟨q, hq⟩ :=
    Option.isSome_iff_exists.1 ((mem_keys_iff_get w3.1 p2.ID).1 hmem3)
  have hstep : fileBulkWorkerStep w3 p2 = (w3.1, w3.2 ++ [.duplicate p2.ID]) :=
    fbwStep_valid_dup w3 p2 q h2 hq
  refine ⟨.duplicate p2.ID, ?_, rfl⟩
  refine foldl_fbw_errs_mono l3 _ _ ?_
  rw [hstep]
  exact List.mem_append_right _ (List.mem_singleton.2 rfl)

theorem fileBulkWorkSt_dup_pair (m : List (String × Product))
    (l1 l2 l3 : List Product) (p1 p2 : Product)
    (h1 : ValidRecord p1) (h2 : ValidRecord p2) (hid : p1.ID = p2.ID) :
    optHasDup (fileBulkWorkSt m (l1 ++ p1 :: l2 ++ p2 :: l3)).2 = true := by
  obtain ⟨e, he, hdup⟩ := fileBulkWorker_dup_pair [] l1 l2 l3 p1 p2 h1 h2 hid
  refine foldl_fbm_hasDup_mono _ _ ?_
  exact errsFold_hasDup _ none e he hdup

theorem memBulk_dup_pair (m : List (String × Product))
    (l1 l2 l3 : List Product) (p1 p2 : Product)
    (h1 : ValidRecord p1) (h2 : ValidRecord p2) (hid : p1.ID = p2.ID)
    (hnd : (mapKeys m).Nodup) :
    optHasDup ((memBulkImport .live m (l1 ++ p1 :: l2 ++ p2 :: l3)).2) = true
    ∧ ((memBulkImport .live m (l1 ++ p1 :: l2 ++ p2 :: l3)).2).isSome = true
    ∧ (mapKeys ((memBulkImport .live m (l1 ++ p1 :: l2 ++ p2 :: l3)).1)).count
        p2.ID ≤ 1 := by
  rw [memBulkImport_live, List.foldl_append, List.foldl_cons,
    List.foldl_append, List.foldl_cons]
  set s1 := List.foldl memBulkStep (m, none) l1 with hs1
  set s2 := memBulkStep s1 p1 with hs2
  set s3 := List.foldl memBulkStep s2 l2 with hs3
  have hmem2 : p1.ID ∈ mapKeys s2.1 := memBulkStep_valid_mem s1 p1 h1
  have hmem3 : p2.ID ∈ mapKeys s3.1 :=
    hid ▸ foldl_memBulk_keys_mono l2 s2 p1.ID hmem2
  have hdup4 : optHasDup (memBulkStep s3 p2).2 = true :=
    memBulkStep_dup s3 p2 h2 hmem3
  have hfin : optHasDup ((List.foldl memBulkStep (memBulkStep s3 p2) l3).2)
      = true := foldl_memBulk_hasDup_mono l3 _ hdup4
  refine ⟨hfin, optHasDup_isSome _ hfin, ?_⟩
  have hnd2 : (mapKeys ((List.foldl memBulkStep (memBulkStep s3 p2) l3).1)).Nodup :=
    foldl_memBulk_keysNodup l3 _ (memBulkStep_keysNodup s3 p2
      (foldl_memBulk_keysNodup l2 s2 (memBulkStep_keysNodup s1 p1
        (foldl_memBulk_keysNodup l1 (m, none) hnd))))
  exact List.nodup_iff_count_le_one.1 hnd2 p2.ID

/-- C6 counterexample: the file backend's BulkImport worker reports an
invalid record as `Invalid{Field:"bulk"}` while `Create` for the same
record reports `Invalid{Field:"name"}` — not the same offending field;
and a batch carrying the same ID twice on two INVALID records yields an
aggregated error containing no Duplicate error at all. -/
theorem C6_counterexample :
    (fileBulkImport .live .ok [] .missing [sampleBadName]).2
        = some (.invalid "bulk" "invalid product" (.prod sampleBadName))
    ∧ (fileCreate .live .ok [] .missing sampleBadName).2
        = some (.invalid "name" "cannot be empty" (.str ""))
    ∧ GoErr.invField (.invalid "bulk" "invalid product" (.prod sampleBadName))
        ≠ GoErr.invField (.invalid "name" "cannot be empty" (.str ""))
    ∧ optHasDup ((memBulkImport .live [] [sampleBadName, sampleBadName]).2) = false
    ∧ ((memBulkImport .live [] [sampleBadName, sampleBadName]).2).isSome = true := by
  refine ⟨by decide, by decide, by decide, by decide, by decide⟩

/-- C6 (amended): in-memory BulkImport workers call `Create` itself, so a
failing item's per-item error wraps exactly Create's error (same kind and
field); file-backend workers apply an equivalent validity test and the
same duplicate detection as Create, but report invalid records as an
Invalid error naming field "bulk" rather than the offending field; and a
batch containing two VALID records with the same ID yields, on either
backend, a non-nil aggregated error containing a Duplicate error and
leaves at most one record with that ID in the store. -/
theorem C6_bulk_amended :
    (∀ (st : List (String × Product) × List GoErr) (p : Product),
      (p.ID = "" ∨ p.Name = "" ∨ p.Price < 0 ∨ p.Quantity < 0) →
        fileBulkWorkerStep st p
          = (st.1, st.2 ++ [.invalid "bulk" "invalid product" (.prod p)]))
    ∧ (∀ (st : List (String × Product) × List GoErr) (p q : Product),
        ValidRecord p → mapGet st.1 p.ID = some q →
          fileBulkWorkerStep st p = (st.1, st.2 ++ [.duplicate p.ID]))
    ∧ (∀ (st : List (String × Product) × Option GoErr) (p : Product) (e : GoErr),
        (memCreate .live st.1 p).2 = some e →
          (memBulkStep st p).2 = joinErr st.2 (.wrap p.ID e))
    ∧ (∀ (m : List (String × Product)) (f : FileData) (sv : SaveOutcome)
        (l1 l2 l3 : List Product) (p1 p2 : Product),
        ValidRecord p1 → ValidRecord p2 → p1.ID = p2.ID →
        (mapKeys m).Nodup →
        (optHasDup ((memBulkImport .live m (l1 ++ p1 :: l2 ++ p2 :: l3)).2) = true
          ∧ ((memBulkImport .live m (l1 ++ p1 :: l2 ++ p2 :: l3)).2).isSome = true
          ∧ (mapKeys ((memBulkImport .live m (l1 ++ p1 :: l2 ++ p2 :: l3)).1)).count
              p2.ID ≤ 1)
        ∧ (optHasDup ((fileBulkImport .live sv m f (l1 ++ p1 :: l2 ++ p2 :: l3)).2)
              = true
          ∧ ((fileBulkImport .live sv m f (l1 ++ p1 :: l2 ++ p2 :: l3)).2).isSome
              = true
          ∧ (mapKeys
              ((fileBulkImport .live sv m f (l1 ++ p1 :: l2 ++ p2 :: l3)).1.1)).count
              p2.ID ≤ 1)) := by
  refine ⟨?_, ?_, ?_, ?_⟩
  · intro st p h
    exact fbwStep_not_valid st p h
  · intro st p q hv hg
    exact fbwStep_valid_dup st p q hv hg
  · intro st p e h
    rw [memBulkStep_snd, h]
  · intro m f sv l1 l2 l3 p1 p2 h1 h2 hid hnd
    refine ⟨memBulk_dup_pair m l1 l2 l3 p1 p2 h1 h2 hid hnd, ?_⟩
    have hne : (l1 ++ p1 :: l2 ++ p2 :: l3).isEmpty = false :=
      isEmpty_false_of_ne_nil _ (List.ne_nil_of_mem
        (List.mem_append_left _
          (List.mem_append_right l1 (List.mem_cons_self p1 l2))))
    have hdw : optHasDup (fileBulkWorkSt m (l1 ++ p1 :: l2 ++ p2 :: l3)).2 = true :=
      fileBulkWorkSt_dup_pair m l1 l2 l3 p1 p2 h1 h2 hid
    obtain ⟨ha, hb⟩ :=
      fileBulkImport_live_hasDup sv m f (l1 ++ p1 :: l2 ++ p2 :: l3) hne hdw
    refine ⟨ha, hb, ?_⟩
    rw [fileBulkImport_live_map sv m f _ hne]
    exact List.nodup_iff_count_le_one.1 (fileBulkWorkSt_keysNodup m _ hnd) p2.ID

/-- C6 witness: the amended theorem applied at concrete inputs — an
invalid record in the file worker, a staged duplicate, an in-memory
wrapped Create error, and a two-record same-ID batch on both backends. -/
theorem C6_bulk_amended_witness :
    fileBulkWorkerStep (([], []) : List (String × Product) × List GoErr) sampleBadName
        = ([], [] ++ [.invalid "bulk" "invalid product" (.prod sampleBadName)])
    ∧ fileBulkWorkerStep (([("a1", sampleA)], []) :
          List (String × Product) × List GoErr) sampleA
        = ([("a1", sampleA)], [] ++ [.duplicate sampleA.ID])
    ∧ (memBulkStep (([], none) : List (String × Product) × Option GoErr)
          sampleBadName).2
        = joinErr none (.wrap sampleBadName.ID
            (.invalid "name" "cannot be empty" (.str sampleBadName.Name)))
    ∧ ((optHasDup ((memBulkImport .live []
          ([] ++ sampleA :: [] ++ { sampleA with Price := 9 } :: [])).2) = true
        ∧ ((memBulkImport .live []
            ([] ++ sampleA :: [] ++ { sampleA with Price := 9 } :: [])).2).isSome = true
        ∧ (mapKeys ((memBulkImport .live []
            ([] ++ sampleA :: [] ++ { sampleA with Price := 9 } :: [])).1)).count
            ({ sampleA with Price := 9 }).ID ≤ 1)
      ∧ (optHasDup ((fileBulkImport .live .ok [] .missing
            ([] ++ sampleA :: [] ++ { sampleA with Price := 9 } :: [])).2) = true
        ∧ ((fileBulkImport .live .ok [] .missing
            ([] ++ sampleA :: [] ++ { sampleA with Price := 9 } :: [])).2).isSome = true
        ∧ (mapKeys ((fileBulkImport .live .ok [] .missing
            ([] ++ sampleA :: [] ++ { sampleA with Price := 9 } :: [])).1.1)).count
            ({ sampleA with Price := 9 }).ID ≤ 1)) :=
  ⟨C6_bulk_amended.1 ([], []) sampleBadName (by decide),
   C6_bulk_amended.2.1 ([("a1", sampleA)], []) sampleA sampleA (by decide) (by decide),
   C6_bulk_amended.2.2.1 ([], none) sampleBadName
     (.invalid "name" "cannot be empty" (.str sampleBadName.Name)) (by decide),
   C6_bulk_amended.2.2.2 [] .missing .ok [] [] [] sampleA
     { sampleA with Price := 9 } (by decide) (by decide) (by decide) (by decide)⟩

/-- C7 counterexample: an in-memory BulkImport collector run that has
already collected a per-item Invalid error and then observes
cancellation returns only the cancellation error — the collected
per-item error is silently dropped and the skipped item is not counted,
so "no error is silently dropped" is false. -/
theorem C7_counterexample :
    collectResults .canceled 2
        [.res (some (.wrap "a1" (.invalid "name" "cannot be empty" (.str "")))),
          .ctxDone] 0 none
      = some (some .canceled)
    ∧ GoErr.hasInvalid .canceled = false := by
  refine ⟨by decide, by decide⟩

/-- C7 (amended): in the in-memory backend, whenever the collector
observes cancellation before all results are received, the call returns
exactly the context's cancellation error: cancellation takes priority
over — and discards — any per-item errors collected so far, and items
not yet collected are not counted. -/
theorem C7_cancel_priority_amended (ctxErr : GoErr) (total : Nat)
    (evs : List BulkEvent) (received : Nat) (collected : Option GoErr)
    (h : received < total) :
    collectResults ctxErr total (.ctxDone :: evs) received collected
      = some (some ctxErr) := by
  unfold collectResults
  rw [if_neg (by omega)]

/-- C7 witness: a collector one result short of its total, holding a
collected per-item error, observing cancellation. -/
theorem C7_cancel_priority_amended_witness :
    collectResults .canceled 2 [.ctxDone] 1
        (some (.wrap "a1" (.invalid "name" "cannot be empty" (.str ""))))
      = some (some .canceled) :=
  C7_cancel_priority_amended .canceled 2 [] 1
    (some (.wrap "a1" (.invalid "name" "cannot be empty" (.str "")))) (by decide)
